import Mathlib

/-!
# protos: transport, routing and daemon lifecycle

A shallow embedding of `api/api.go`, `api/internal.go` and `daemon/daemon.go`.

* Go functions that only compute are Lean functions with the same name.
* Go functions that act on the outside world (start a goroutine, send on a channel, write a
  response) return the list of effects they perform, in program order.
* What the code reads from packages that are not part of these files (the certificate parser,
  the local address lookup, the domain collaborators) is an explicit argument.
* `log.Fatal` ends the process: a function that can reach it returns `Except`, or ends the
  list of what it does with `fatal`.
* The router library `gorilla/mux`, `net/http` and `crypto/tls` are modelled as far as the
  code uses them; `regexp` as far as path templates can use it.
* A send on a channel completes when a goroutine receives the value or the buffer has room
  for it; the state of the channels is an explicit argument.
-/

set_option autoImplicit false

/-! ## Constants of `crypto/tls` -/
namespace tls

def VersionTLS10 : Nat := 0x0301
def VersionTLS11 : Nat := 0x0302
def VersionTLS12 : Nat := 0x0303
def VersionTLS13 : Nat := 0x0304

def CurveP256 : Nat := 23
def CurveP384 : Nat := 24
def CurveP521 : Nat := 25

def TLS_RSA_WITH_RC4_128_SHA : Nat := 0x0005
def TLS_RSA_WITH_3DES_EDE_CBC_SHA : Nat := 0x000a
def TLS_RSA_WITH_AES_128_CBC_SHA : Nat := 0x002f
def TLS_RSA_WITH_AES_256_CBC_SHA : Nat := 0x0035
def TLS_RSA_WITH_AES_128_CBC_SHA256 : Nat := 0x003c
def TLS_RSA_WITH_AES_128_GCM_SHA256 : Nat := 0x009c
def TLS_RSA_WITH_AES_256_GCM_SHA384 : Nat := 0x009d
def TLS_ECDHE_ECDSA_WITH_RC4_128_SHA : Nat := 0xc007
def TLS_ECDHE_ECDSA_WITH_AES_128_CBC_SHA : Nat := 0xc009
def TLS_ECDHE_ECDSA_WITH_AES_256_CBC_SHA : Nat := 0xc00a
def TLS_ECDHE_RSA_WITH_RC4_128_SHA : Nat := 0xc011
def TLS_ECDHE_RSA_WITH_3DES_EDE_CBC_SHA : Nat := 0xc012
def TLS_ECDHE_RSA_WITH_AES_128_CBC_SHA : Nat := 0xc013
def TLS_ECDHE_RSA_WITH_AES_256_CBC_SHA : Nat := 0xc014
def TLS_ECDHE_ECDSA_WITH_AES_128_CBC_SHA256 : Nat := 0xc023
def TLS_ECDHE_RSA_WITH_AES_128_CBC_SHA256 : Nat := 0xc027
def TLS_ECDHE_RSA_WITH_AES_128_GCM_SHA256 : Nat := 0xc02f
def TLS_ECDHE_ECDSA_WITH_AES_128_GCM_SHA256 : Nat := 0xc02b
def TLS_ECDHE_RSA_WITH_AES_256_GCM_SHA384 : Nat := 0xc030
def TLS_ECDHE_ECDSA_WITH_AES_256_GCM_SHA384 : Nat := 0xc02c
def TLS_ECDHE_RSA_WITH_CHACHA20_POLY1305 : Nat := 0xcca8
def TLS_ECDHE_ECDSA_WITH_CHACHA20_POLY1305 : Nat := 0xcca9

/-- Key exchange of a cipher suite, the part of its name before `WITH`. -/
inductive KeyExchange
  | RSA
  | ECDHE_RSA
  | ECDHE_ECDSA
  deriving DecidableEq, Repr

/-- Bulk cipher of a cipher suite, the part of its name after `WITH`. -/
inductive Cipher
  | RC4_128
  | TripleDES_EDE_CBC
  | AES_128_CBC
  | AES_256_CBC
  | AES_128_GCM
  | AES_256_GCM
  | CHACHA20_POLY1305
  | NULL
  deriving DecidableEq, Repr

/-- What the name of a cipher suite constant of `crypto/tls` says: its key exchange and its
bulk cipher. A number that is no constant of the package has no entry. -/
def suiteInfo (id : Nat) : Option (KeyExchange × Cipher) :=
  if id = TLS_RSA_WITH_RC4_128_SHA then some (.RSA, .RC4_128)
  else if id = TLS_RSA_WITH_3DES_EDE_CBC_SHA then some (.RSA, .TripleDES_EDE_CBC)
  else if id = TLS_RSA_WITH_AES_128_CBC_SHA then some (.RSA, .AES_128_CBC)
  else if id = TLS_RSA_WITH_AES_256_CBC_SHA then some (.RSA, .AES_256_CBC)
  else if id = TLS_RSA_WITH_AES_128_CBC_SHA256 then some (.RSA, .AES_128_CBC)
  else if id = TLS_RSA_WITH_AES_128_GCM_SHA256 then some (.RSA, .AES_128_GCM)
  else if id = TLS_RSA_WITH_AES_256_GCM_SHA384 then some (.RSA, .AES_256_GCM)
  else if id = TLS_ECDHE_ECDSA_WITH_RC4_128_SHA then some (.ECDHE_ECDSA, .RC4_128)
  else if id = TLS_ECDHE_ECDSA_WITH_AES_128_CBC_SHA then some (.ECDHE_ECDSA, .AES_128_CBC)
  else if id = TLS_ECDHE_ECDSA_WITH_AES_256_CBC_SHA then some (.ECDHE_ECDSA, .AES_256_CBC)
  else if id = TLS_ECDHE_RSA_WITH_RC4_128_SHA then some (.ECDHE_RSA, .RC4_128)
  else if id = TLS_ECDHE_RSA_WITH_3DES_EDE_CBC_SHA then some (.ECDHE_RSA, .TripleDES_EDE_CBC)
  else if id = TLS_ECDHE_RSA_WITH_AES_128_CBC_SHA then some (.ECDHE_RSA, .AES_128_CBC)
  else if id = TLS_ECDHE_RSA_WITH_AES_256_CBC_SHA then some (.ECDHE_RSA, .AES_256_CBC)
  else if id = TLS_ECDHE_ECDSA_WITH_AES_128_CBC_SHA256 then some (.ECDHE_ECDSA, .AES_128_CBC)
  else if id = TLS_ECDHE_RSA_WITH_AES_128_CBC_SHA256 then some (.ECDHE_RSA, .AES_128_CBC)
  else if id = TLS_ECDHE_RSA_WITH_AES_128_GCM_SHA256 then some (.ECDHE_RSA, .AES_128_GCM)
  else if id = TLS_ECDHE_ECDSA_WITH_AES_128_GCM_SHA256 then some (.ECDHE_ECDSA, .AES_128_GCM)
  else if id = TLS_ECDHE_RSA_WITH_AES_256_GCM_SHA384 then some (.ECDHE_RSA, .AES_256_GCM)
  else if id = TLS_ECDHE_ECDSA_WITH_AES_256_GCM_SHA384 then some (.ECDHE_ECDSA, .AES_256_GCM)
  else if id = TLS_ECDHE_RSA_WITH_CHACHA20_POLY1305 then some (.ECDHE_RSA, .CHACHA20_POLY1305)
  else if id = TLS_ECDHE_ECDSA_WITH_CHACHA20_POLY1305 then
    some (.ECDHE_ECDSA, .CHACHA20_POLY1305)
  else none

/-- The suite's key exchange is ephemeral Diffie-Hellman (forward secret). -/
def isECDHE (id : Nat) : Bool :=
  match suiteInfo id with
  | some (.ECDHE_RSA, _) => true
  | some (.ECDHE_ECDSA, _) => true
  | _ => false

/-- The suite's key exchange is static RSA (not forward secret). -/
def isStaticRSA (id : Nat) : Bool :=
  match suiteInfo id with
  | some (.RSA, _) => true
  | _ => false

/-- The suite's bulk cipher is AES in GCM or in CBC mode. -/
def isAES_GCM_or_CBC (id : Nat) : Bool :=
  match suiteInfo id with
  | some (_, .AES_128_CBC) => true
  | some (_, .AES_256_CBC) => true
  | some (_, .AES_128_GCM) => true
  | some (_, .AES_256_GCM) => true
  | _ => false

/-- The suite's bulk cipher is RC4, 3DES or NULL, or the number names no suite at all. -/
def isRC4_3DES_or_NULL (id : Nat) : Bool :=
  match suiteInfo id with
  | some (_, .RC4_128) => true
  | some (_, .TripleDES_EDE_CBC) => true
  | some (_, .NULL) => true
  | none => true
  | _ => false

/-- The fields of `tls.Config` that `secureListen` sets. -/
structure Config (κ : Type) where
  MinVersion : Nat
  CurvePreferences : List Nat
  PreferServerCipherSuites : Bool
  CipherSuites : List Nat
  Certificates : List κ

end tls

/-! ## `context` and `net/http` -/
namespace context

/-- A `context.Context`, reduced to its deadline (`none`: the context never expires). -/
structure Context where
  deadline : Option Nat
  deriving DecidableEq, Repr

/-- The `context.Background()` of Go: never cancelled, no values, no deadline. -/
def Background : Context := { deadline := none }

end context

namespace http

/-- The fields of `http.Server` set in `api.go`. `η` is the handler, `κ` a parsed
certificate. -/
structure Server (η κ : Type) where
  Addr : String
  Handler : η
  TLSConfig : Option (tls.Config κ) := none
  ReadTimeout : Option Nat := none
  WriteTimeout : Option Nat := none
  MaxHeaderBytes : Option Nat := none

/-- The contract of `(*http.Server).Shutdown(ctx)`: it returns when the listener's
connections have become idle (`idleAfter`, `none` if a request in flight never finishes) or
when `ctx` expires, whichever is first; with neither it does not return. The result is the
time the call takes, `none` for a call that never returns. -/
def ShutdownTime (ctx : context.Context) (idleAfter : Option Nat) : Option Nat :=
  match ctx.deadline, idleAfter with
  | none, none => none
  | none, some t => some t
  | some d, none => some d
  | some d, some t => some (min d t)

end http

namespace api

/-- Go's `strconv.Itoa`. -/
def Itoa (i : Int) : String := toString i

/-- Go's `strings.Contains`. -/
def Contains (s substr : String) : Bool :=
  s.toList.tails.any fun t => substr.toList.isPrefixOf t

/-- The fields of `gconfig` read in `api.go`. -/
structure Config where
  HTTPport : Int
  HTTPSport : Int
  InternalIP : String
  StaticAssets : String

/-- The certificate resource of `resource.CertificateResource`. -/
structure CertificateResource where
  Certificate : List Nat
  PrivateKey : List Nat

/-- What `secureListen` gets from outside `api.go`. `κ` is a parsed certificate. -/
structure Env (κ : Type) where
  /-- The `tls.X509KeyPair` of Go. -/
  X509KeyPair : List Nat → List Nat → Except String κ
  /-- The `util.GetLocalIPs` of the repository. -/
  GetLocalIPs : Except String (List String)
  /-- The error `ListenAndServe` of the server bound to an address returns (`none`: nil). -/
  ListenAndServe : String → Option String
  /-- The error `ListenAndServeTLS` of the server bound to an address returns. -/
  ListenAndServeTLS : String → Option String
  /-- The error `Shutdown` of the server bound to an address returns. -/
  Shutdown : String → Option String

/-- What `secureListen` and `WebsrvInit` do, in program order. -/
inductive Effect (η κ : Type)
  | logInfo (msg : String)
  | logError (msg : String)
  /-- The statement `go func() { isrv.ListenAndServe() ... }()`, with what the goroutine
  logs. -/
  | goListenAndServe (srv : http.Server η κ) (logged : List (Effect η κ))
  /-- The statement `go func() { srv.ListenAndServeTLS("", "") ... }()`, with what the
  goroutine logs. -/
  | goListenAndServeTLS (srv : http.Server η κ) (logged : List (Effect η κ))
  /-- The statement `<-quit`. -/
  | recvQuit (value : Bool)
  /-- The call `srv.Shutdown(ctx)`. -/
  | shutdown (srv : http.Server η κ) (ctx : context.Context)

/-- The body of the goroutine of an internal listener: what it logs when `ListenAndServe`
has returned `err`. -/
def internalServed {η κ : Type} (ip : String) (err : Option String) : List (Effect η κ) :=
  match err with
  | none => []
  | some e =>
    if Contains e "Server closed" then
      [.logInfo ("Internal (" ++ ip ++ ") API webserver terminated successfully")]
    else
      [.logError ("Internal (" ++ ip ++ ") API webserver died with error: " ++ e)]

/-- The body of the goroutine of the TLS listener: what it logs before it listens and when
`ListenAndServeTLS` has returned `err`. -/
def tlsServed {η κ : Type} (addr : String) (err : Option String) : List (Effect η κ) :=
  .logInfo ("Listening on " ++ addr ++ " (HTTPS)") ::
    match err with
    | none => []
    | some e =>
      if Contains e "Server closed" then
        [.logInfo "HTTPS API webserver terminated successfully"]
      else
        [.logError ("HTTPS API webserver died with error: " ++ e)]

/-- The TLS configuration `secureListen` builds (`cfg := &tls.Config{...}`). -/
def tlsConfig {κ : Type} (tlscert : κ) : tls.Config κ :=
  { MinVersion := tls.VersionTLS12
    CurvePreferences := [tls.CurveP521, tls.CurveP384, tls.CurveP256]
    PreferServerCipherSuites := true
    CipherSuites :=
      [ tls.TLS_ECDHE_RSA_WITH_AES_256_GCM_SHA384,
        tls.TLS_ECDHE_RSA_WITH_AES_256_CBC_SHA,
        tls.TLS_RSA_WITH_AES_256_GCM_SHA384,
        tls.TLS_RSA_WITH_AES_256_CBC_SHA ]
    Certificates := [tlscert] }

/-- The address list of `secureListen`: the configured internal address, or else the local
addresses (`log.Fatal` when they cannot be found). -/
def listenIPs {κ : Type} (gconfig : Config) (env : Env κ) : Except String (List String) :=
  if gconfig.InternalIP != "" then
    .ok [gconfig.InternalIP]
  else
    match env.GetLocalIPs with
    | .error e => .error ("Failed to start HTTPS server: " ++ e)
    | .ok ips => .ok ips

/-- One turn of the loop `for _, nip := range ips`: the state is `internalSrvs` and the
effects so far. -/
def listenStep {η κ : Type} (env : Env κ) (handler : η) (httpport : String)
    (st : List (http.Server η κ) × List (Effect η κ)) (nip : String) :
    List (http.Server η κ) × List (Effect η κ) :=
  let ip := nip
  let isrv : http.Server η κ := { Addr := ip ++ ":" ++ httpport, Handler := handler }
  (st.1 ++ [isrv],
   st.2 ++ [.logInfo ("Listening internally on " ++ ip ++ ":" ++ httpport ++ " (HTTP)"),
            .goListenAndServe isrv (internalServed ip (env.ListenAndServe isrv.Addr))])

/-- One turn of the loop `for _, isrv := range internalSrvs` that shuts the listeners down. -/
def shutdownStep {η κ : Type} (env : Env κ) (isrv : http.Server η κ) : List (Effect η κ) :=
  .shutdown isrv context.Background ::
    match env.Shutdown isrv.Addr with
    | none => []
    | some e =>
      [.logError ("Something went wrong while shutting down the internal API webserver: " ++ e)]

/-- The function `secureListen` of `api.go`. `quit` is the value received from the quit
channel. The result is `.error` when the function ends in `log.Fatal`. -/
def secureListen {η κ : Type} (gconfig : Config) (env : Env κ) (handler : η)
    (certrsc : Option CertificateResource) (quit : Bool) : Except String (List (Effect η κ)) :=
  match certrsc with
  | none => .error "Failed to read TLS certificate"
  | some cert =>
    match env.X509KeyPair cert.Certificate cert.PrivateKey with
    | .error e => .error ("Failed to parse the TLS certificate: " ++ e)
    | .ok tlscert =>
      let cfg := tlsConfig tlscert
      let httpsport := Itoa gconfig.HTTPSport
      let httpport := Itoa gconfig.HTTPport
      let srv : http.Server η κ :=
        { Addr := ":" ++ httpsport, Handler := handler, TLSConfig := some cfg }
      match listenIPs gconfig env with
      | .error e => .error e
      | .ok ips =>
        let looped := ips.foldl (listenStep env handler httpport) ([], [])
        let internalSrvs := looped.1
        .ok (looped.2
          ++ [.goListenAndServeTLS srv (tlsServed srv.Addr (env.ListenAndServeTLS srv.Addr)),
              .recvQuit quit,
              .logInfo "Shutting down HTTPS webserver",
              .shutdown srv context.Background]
          ++ (match env.Shutdown srv.Addr with
              | none => []
              | some e =>
                [.logError
                  ("Something went wrong while shutting down the HTTPS webserver: " ++ e)])
          ++ internalSrvs.flatMap (shutdownStep env))

/-- The TLS server of `secureListen` (`srv := &http.Server{...}`). -/
def tlsServer {η κ : Type} (gconfig : Config) (handler : η) (tlscert : κ) : http.Server η κ :=
  { Addr := ":" ++ Itoa gconfig.HTTPSport, Handler := handler,
    TLSConfig := some (tlsConfig tlscert) }

/-- The plaintext server `secureListen` binds to one address
(`isrv := &http.Server{Addr: ip + ":" + httpport, Handler: handler}`). -/
def plainServer {η κ : Type} (gconfig : Config) (handler : η) (ip : String) :
    http.Server η κ :=
  { Addr := ip ++ ":" ++ Itoa gconfig.HTTPport, Handler := handler }

/-- The plaintext listeners a run launches, in launch order. -/
def launchedPlain {η κ : Type} (effects : List (Effect η κ)) : List (http.Server η κ) :=
  effects.filterMap fun
    | .goListenAndServe srv _ => some srv
    | _ => none

/-- The TLS listeners a run launches. -/
def launchedTLS {η κ : Type} (effects : List (Effect η κ)) : List (http.Server η κ) :=
  effects.filterMap fun
    | .goListenAndServeTLS srv _ => some srv
    | _ => none

/-- The `Shutdown` calls of a run, in program order: the address of the listener and the
context it is given. -/
def shutdownCalls {η κ : Type} (effects : List (Effect η κ)) :
    List (String × context.Context) :=
  effects.filterMap fun
    | .shutdown srv ctx => some (srv.Addr, ctx)
    | _ => none

/-- The time a sequence of `Shutdown` calls takes, one call after the other: `none` when one
of them never returns. `idleAfter` tells, by address, when a listener's connections become
idle (`none`: a request in flight never finishes). -/
def shutdownTime (idleAfter : String → Option Nat) :
    List (String × context.Context) → Option Nat
  | [] => some 0
  | (addr, ctx) :: rest =>
    match http.ShutdownTime ctx (idleAfter addr), shutdownTime idleAfter rest with
    | some t, some u => some (t + u)
    | _, _ => none

end api

/-! ## Go's `regexp`: the expressions of path variables

A variable of a path template may carry a regular expression of its own (`{name:pattern}`).
The syntax read here is the one of Go's `regexp/syntax` for: literal characters, `.`, character
classes (ranges, negation, `\d \w \s` and their negations, `[:alpha:]` and the other ASCII
classes), escapes (`\t \n \r \f \v \a`, octal, `\xHH`, `\x{H...}`, escaped punctuation),
`\Q...\E`, groups (`(...)`, `(?:...)`, `(?P<name>...)`, `(?<name>...)`), the flags `i` (for
ASCII letters), `m`, `s` and `U` (`(?i)`, `(?i:...)`, `(?-i)`), alternation, the repetitions
`* + ? {n} {n,} {n,m}` and their lazy forms, and the assertions `^ $ \A \z \b \B`. Unicode
classes (`\p`, `\P`) are not read: an expression using one does not compile. -/
namespace regexp

/-- A set of characters: the code points of a range, or those outside a list of ranges. -/
inductive Item
  | range (lo hi : Nat)
  | outside (ranges : List (Nat × Nat))
  deriving DecidableEq, Repr

/-- A condition on a place in the text. -/
inductive Assertion
  | beginText
  | endText
  | beginLine
  | endLine
  | wordBoundary
  | noWordBoundary
  deriving DecidableEq, Repr

/-- A parsed regular expression. -/
inductive Regex
  | eps
  | set (fold negated : Bool) (items : List Item)
  | cat (a b : Regex)
  | alt (a b : Regex)
  | star (a : Regex)
  | rep (min : Nat) (max : Option Nat) (a : Regex)
  | assert (a : Assertion)
  deriving DecidableEq, Repr

/-- The flags in force while an expression is read: `i` (case-insensitive), `m` (`^` and `$`
match at the ends of lines), `s` (`.` matches a line feed), `U` (lazy and greedy swapped,
which matters for what is captured, not for what matches). -/
structure Flags where
  i : Bool := false
  m : Bool := false
  s : Bool := false
  U : Bool := false
  deriving DecidableEq, Repr

/-- A character of words: an ASCII letter, a digit or `_`. -/
def isWord (c : Option Char) : Bool :=
  match c with
  | some c => c.isAlphanum || c = '_'
  | none => false

/-- Whether the assertion holds between the character `prev` (`none`: the place is the
beginning of the text) and the rest `cs` of the text. -/
def Assertion.holds (prev : Option Char) (cs : List Char) : Assertion → Bool
  | .beginText => prev.isNone
  | .endText => cs.isEmpty
  | .beginLine => prev.isNone || prev = some '\n'
  | .endLine => cs.isEmpty || cs.head? = some '\n'
  | .wordBoundary => isWord prev != isWord cs.head?
  | .noWordBoundary => isWord prev == isWord cs.head?

/-- Whether a code point is in an item. -/
def Item.has (c : Nat) : Item → Bool
  | .range lo hi => decide (lo ≤ c) && decide (c ≤ hi)
  | .outside ranges => !ranges.any fun r => decide (r.1 ≤ c) && decide (c ≤ r.2)

/-- The other case of an ASCII letter. -/
def swapCase (c : Nat) : Nat :=
  if 65 ≤ c ∧ c ≤ 90 then c + 32
  else if 97 ≤ c ∧ c ≤ 122 then c - 32
  else c

/-- Whether a character is in the set of a `Regex.set`. -/
def setHas (fold negated : Bool) (items : List Item) (c : Char) : Bool :=
  let inside := items.any fun it => it.has c.toNat || (fold && it.has (swapCase c.toNat))
  inside != negated

/-- The loop of a repetition: `step` is one round of the repeated expression; a round that
reads nothing is not repeated. -/
def loop (step : Option Char → List Char → (Option Char → List Char → Bool) → Bool) :
    Nat → Option Char → List Char → (Option Char → List Char → Bool) → Bool
  | 0, prev, cs, k => k prev cs
  | n + 1, prev, cs, k =>
    k prev cs
      || step prev cs fun prev2 cs2 =>
          decide (cs2.length < cs.length) && loop step n prev2 cs2 k

/-- The expression of `step` `n` times in a row. -/
def times (step : Option Char → List Char → (Option Char → List Char → Bool) → Bool) :
    Nat → Option Char → List Char → (Option Char → List Char → Bool) → Bool
  | 0, prev, cs, k => k prev cs
  | n + 1, prev, cs, k => step prev cs fun prev2 cs2 => times step n prev2 cs2 k

/-- The expression of `step` at most `n` times in a row. -/
def upTo (step : Option Char → List Char → (Option Char → List Char → Bool) → Bool) :
    Nat → Option Char → List Char → (Option Char → List Char → Bool) → Bool
  | 0, prev, cs, k => k prev cs
  | n + 1, prev, cs, k =>
    k prev cs || step prev cs fun prev2 cs2 => upTo step n prev2 cs2 k

/-- Whether the expression matches a prefix of `cs` such that `k` accepts what follows.
`prev` is the character of the text before `cs` (`none`: `cs` is the whole text). -/
def Regex.run : Regex → Option Char → List Char → (Option Char → List Char → Bool) → Bool
  | .eps, prev, cs, k => k prev cs
  | .set _ _ _, _, [], _ => false
  | .set fold negated items, _, c :: cs, k => setHas fold negated items c && k (some c) cs
  | .cat a b, prev, cs, k => a.run prev cs fun prev2 cs2 => b.run prev2 cs2 k
  | .alt a b, prev, cs, k => a.run prev cs k || b.run prev cs k
  | .star a, prev, cs, k => loop a.run cs.length prev cs k
  | .rep min (some max) a, prev, cs, k =>
    times a.run min prev cs fun prev2 cs2 => upTo a.run (max - min) prev2 cs2 k
  | .rep min none a, prev, cs, k =>
    times a.run min prev cs fun prev2 cs2 => loop a.run cs2.length prev2 cs2 k
  | .assert a, prev, cs, k => a.holds prev cs && k prev cs

/-- The value of a hexadecimal digit. -/
def hexDigit (c : Char) : Option Nat :=
  if '0' ≤ c ∧ c ≤ '9' then some (c.toNat - 48)
  else if 'a' ≤ c ∧ c ≤ 'f' then some (c.toNat - 87)
  else if 'A' ≤ c ∧ c ≤ 'F' then some (c.toNat - 55)
  else none

/-- The ranges of `\d`, `\w` and `\s`. -/
def perlRanges (c : Char) : Option (List (Nat × Nat)) :=
  if c = 'd' ∨ c = 'D' then some [(48, 57)]
  else if c = 'w' ∨ c = 'W' then some [(48, 57), (65, 90), (95, 95), (97, 122)]
  else if c = 's' ∨ c = 'S' then some [(9, 10), (12, 13), (32, 32)]
  else none

/-- The class of `\d \w \s` (the ranges) and of `\D \W \S` (what is outside them). -/
def perlClass (c : Char) : Option (List Item) :=
  match perlRanges c with
  | none => none
  | some ranges =>
    if c.isUpper then some [.outside ranges]
    else some (ranges.map fun r => .range r.1 r.2)

/-- The ranges of an ASCII class `[:name:]`. -/
def asciiRanges (name : List Char) : Option (List (Nat × Nat)) :=
  if name = "alnum".data then some [(48, 57), (65, 90), (97, 122)]
  else if name = "alpha".data then some [(65, 90), (97, 122)]
  else if name = "ascii".data then some [(0, 127)]
  else if name = "blank".data then some [(9, 9), (32, 32)]
  else if name = "cntrl".data then some [(0, 31), (127, 127)]
  else if name = "digit".data then some [(48, 57)]
  else if name = "graph".data then some [(33, 126)]
  else if name = "lower".data then some [(97, 122)]
  else if name = "print".data then some [(32, 126)]
  else if name = "punct".data then some [(33, 47), (58, 64), (91, 96), (123, 126)]
  else if name = "space".data then some [(9, 13), (32, 32)]
  else if name = "upper".data then some [(65, 90)]
  else if name = "word".data then some [(48, 57), (65, 90), (95, 95), (97, 122)]
  else if name = "xdigit".data then some [(48, 57), (65, 70), (97, 102)]
  else none

/-- The class `[:name:]` or `[:^name:]` at the front of `cs` (after the `[:`). `none`: no
`:]` follows, the bracket is an ordinary character; `some none`: there is no class of that
name. -/
def asciiClass (cs : List Char) : Option (Option (List Item × List Char)) :=
  let negated := decide (cs.head? = some '^')
  let body := if negated then cs.drop 1 else cs
  let name := body.takeWhile fun c => c != ':'
  match body.drop name.length with
  | ':' :: ']' :: rest =>
    match asciiRanges name with
    | none => some none
    | some ranges =>
      if negated then some (some ([.outside ranges], rest))
      else some (some (ranges.map fun r => .range r.1 r.2, rest))
  | _ => none

/-- The digits of `\x{H...}` up to the closing brace. -/
def hexBraced : Nat → Nat → List Char → Option (Nat × List Char)
  | n, value, '}' :: rest => if 0 < n ∧ value ≤ 1114111 then some (value, rest) else none
  | n, value, c :: rest =>
    match hexDigit c with
    | some d => if value ≤ 1114111 then hexBraced (n + 1) (value * 16 + d) rest else none
    | none => none
  | _, _, [] => none

/-- The value of an octal digit. -/
def octDigit (c : Char) : Option Nat :=
  if '0' ≤ c ∧ c ≤ '7' then some (c.toNat - 48) else none

/-- Up to `n` more octal digits of an octal escape. -/
def octal : Nat → Nat → List Char → Nat × List Char
  | 0, value, cs => (value, cs)
  | _ + 1, value, [] => (value, [])
  | n + 1, value, c :: cs =>
    match octDigit c with
    | some d => octal n (value * 8 + d) cs
    | none => (value, c :: cs)

/-- A character written with a backslash (what follows the backslash): a control character,
an octal or hexadecimal code, or a punctuation character standing for itself. -/
def escapedChar : List Char → Option (Nat × List Char)
  | [] => none
  | c :: rest =>
    if c = 'a' then some (7, rest)
    else if c = 'f' then some (12, rest)
    else if c = 't' then some (9, rest)
    else if c = 'n' then some (10, rest)
    else if c = 'r' then some (13, rest)
    else if c = 'v' then some (11, rest)
    else if c = '0' then some (octal 2 0 rest)
    else if '1' ≤ c ∧ c ≤ '7' then
      match rest.head?.bind octDigit with
      | some _ => some (octal 2 (c.toNat - 48) rest)
      | none => none
    else if c = 'x' then
      match rest with
      | '{' :: digits => hexBraced 0 0 digits
      | h :: l :: rest2 =>
        match hexDigit h, hexDigit l with
        | some a, some b => some (a * 16 + b, rest2)
        | _, _ => none
      | _ => none
    else if c.toNat < 128 ∧ !c.isAlphanum then some (c.toNat, rest)
    else none

/-- One character of a class, plain or escaped. -/
def classChar : List Char → Option (Nat × List Char)
  | '\\' :: rest => escapedChar rest
  | c :: rest => some (c.toNat, rest)
  | [] => none

/-- The items of a character class up to its closing bracket. `first`: nothing of the class
has been read yet, where a `]` stands for itself. -/
def classItems : Nat → Bool → List Item → List Char → Option (List Item × List Char)
  | 0, _, _, _ => none
  | _ + 1, _, _, [] => none
  | fuel + 1, first, items, c :: cs =>
    if c = ']' ∧ !first then some (items, cs)
    else
      match (if c = '[' ∧ cs.head? = some ':' then asciiClass (cs.drop 1) else none) with
      | some (some (more, rest)) => classItems fuel false (items ++ more) rest
      | some none => none
      | none =>
      match (if c = '\\' then cs.head?.bind perlClass else none) with
      | some more => classItems fuel false (items ++ more) (cs.drop 1)
      | none =>
        match classChar (c :: cs) with
        | none => none
        | some (lo, rest) =>
          match rest with
          | '-' :: d :: rest2 =>
            if d = ']' then classItems fuel false (items ++ [.range lo lo]) rest
            else
              match classChar (d :: rest2) with
              | none => none
              | some (hi, rest3) =>
                if hi < lo then none
                else classItems fuel false (items ++ [.range lo hi]) rest3
          | _ => classItems fuel false (items ++ [.range lo lo]) rest

/-- A character class (what follows the opening bracket). -/
def parseClass (flags : Flags) (cs : List Char) : Option (Regex × List Char) :=
  let negated := decide (cs.head? = some '^')
  let cs := if negated then cs.drop 1 else cs
  match classItems (cs.length + 1) true [] cs with
  | none => none
  | some (items, rest) => some (.set flags.i negated items, rest)

/-- Go's `repeatIsValid`: no counted repetitions nested in one another whose counts multiply
to more than `n`. -/
def repeatIsValid : Regex → Nat → Bool
  | .rep min max a, n =>
    match max with
    | some 0 => true
    | _ =>
      let m := max.getD min
      if n < m then false
      else repeatIsValid a (if 0 < m then n / m else n)
  | .cat a b, n => repeatIsValid a n && repeatIsValid b n
  | .alt a b, n => repeatIsValid a n && repeatIsValid b n
  | .star a, n => repeatIsValid a n
  | _, _ => true

/-- A decimal number at the front of `cs`, without a leading zero; a number of more than
eight digits counts as 100000000. -/
def number (cs : List Char) : Option (Nat × List Char) :=
  let digits := cs.takeWhile Char.isDigit
  let rest := cs.drop digits.length
  if digits = [] then none
  else if 2 ≤ digits.length ∧ digits.head? = some '0' then none
  else if 8 < digits.length then some (100000000, rest)
  else some (digits.foldl (fun value c => value * 10 + (c.toNat - 48)) 0, rest)

/-- The bounds of a counted repetition `{n}`, `{n,}` or `{n,m}` (what follows the opening
brace), when it reads as one. -/
def counted (cs : List Char) : Option (Nat × Option Nat × List Char) :=
  match number cs with
  | none => none
  | some (n, rest) =>
    match rest with
    | '}' :: rest => some (n, some n, rest)
    | ',' :: '}' :: rest => some (n, none, rest)
    | ',' :: rest =>
      match number rest with
      | some (m, '}' :: rest) => some (n, some m, rest)
      | _ => none
    | _ => none

/-- Whether a repetition operator is at the front of `cs`. -/
def atRepetition (cs : List Char) : Bool :=
  match cs with
  | '*' :: _ => true
  | '+' :: _ => true
  | '?' :: _ => true
  | '{' :: rest => (counted rest).isSome
  | _ => false

/-- The repetition operator after an expression, if there is one. An operator may be followed
by `?` (lazy), not by another operator; a count is at most 1000, and so is the product of
counts nested in one another; a brace that does not read as a counted repetition is left as
it is, a literal. -/
def repetition (re : Regex) (cs : List Char) : Option (Regex × List Char) :=
  let done (re : Regex) (rest : List Char) : Option (Regex × List Char) :=
    let rest := if rest.head? = some '?' then rest.drop 1 else rest
    if atRepetition rest then none else some (re, rest)
  match cs with
  | '*' :: rest => done (.star re) rest
  | '+' :: rest => done (.cat re (.star re)) rest
  | '?' :: rest => done (.alt .eps re) rest
  | '{' :: rest =>
    match counted rest with
    | some (n, max, rest) =>
      if 1000 < n ∨ 1000 < max.getD 0 ∨ max.getD n < n then none
      else if (2 ≤ n ∨ 2 ≤ max.getD 0) ∧ !repeatIsValid (.rep n max re) 1000 then none
      else done (.rep n max re) rest
    | none => some (re, cs)
  | _ => some (re, cs)

/-- The flags of `(?flags)` or `(?flags:` (what follows the `(?`): the flags after them, and
whether a group follows. `negative`: a `-` has been read; `saw`: a flag has been read since. -/
def parseFlags : Bool → Bool → Flags → List Char → Option (Flags × Bool × List Char)
  | _, _, _, [] => none
  | negative, saw, flags, c :: rest =>
    if c = ')' ∨ c = ':' then
      if negative ∧ !saw then none else some (flags, decide (c = ':'), rest)
    else if c = '-' then
      if negative then none else parseFlags true false flags rest
    else if c = 'i' then parseFlags negative true { flags with i := !negative } rest
    else if c = 'm' then parseFlags negative true { flags with m := !negative } rest
    else if c = 's' then parseFlags negative true { flags with s := !negative } rest
    else if c = 'U' then parseFlags negative true { flags with U := !negative } rest
    else none

/-- What the parser is reading: an alternation up to `)` or the end, a sequence up to `|`,
`)` or the end, or one expression with its repetition. -/
inductive Level
  | alternation
  | sequence
  | single
  deriving DecidableEq, Repr

/-- The parser: the expression read, whether it has capturing groups, the flags after it,
and the rest of the text. `none`: no expression can be read (a syntax error, or nothing
left for `single`). What `\Q` quotes is read one character at a time. -/
def parse : Nat → Level → Flags → List Char → Option (Regex × Bool × Flags × List Char)
  | 0, _, _, _ => none
  | fuel + 1, .alternation, flags, cs =>
    match parse fuel .sequence flags cs with
    | none => none
    | some (a, ca, flags2, '|' :: rest) =>
      match parse fuel .alternation flags2 rest with
      | none => none
      | some (b, cb, flags3, rest2) => some (.alt a b, ca || cb, flags3, rest2)
    | some r => some r
  | fuel + 1, .sequence, flags, cs =>
    match cs with
    | [] => some (.eps, false, flags, [])
    | '|' :: _ => some (.eps, false, flags, cs)
    | ')' :: _ => some (.eps, false, flags, cs)
    | _ =>
      match parse fuel .single flags cs with
      | none => none
      | some (a, ca, flags2, rest) =>
        match parse fuel .sequence flags2 rest with
        | none => none
        | some (b, cb, flags3, rest2) => some (.cat a b, ca || cb, flags3, rest2)
  | fuel + 1, .single, flags, cs =>
    let group (capture : Bool) (inner : Flags) (body : List Char) :
        Option (Regex × Bool × Flags × List Char) :=
      match parse fuel .alternation inner body with
      | some (re, c, _, ')' :: rest) =>
        match repetition re rest with
        | some (re2, rest2) => some (re2, capture || c, flags, rest2)
        | none => none
      | _ => none
    let atom (re : Regex) (rest : List Char) : Option (Regex × Bool × Flags × List Char) :=
      match repetition re rest with
      | some (re2, rest2) => some (re2, false, flags, rest2)
      | none => none
    match cs with
    | [] => none
    | '(' :: '?' :: 'P' :: '<' :: rest =>
      let name := rest.takeWhile fun c => c.isAlphanum || c = '_'
      match rest.drop name.length with
      | '>' :: body => if name = [] then none else group true flags body
      | _ => none
    | '(' :: '?' :: '<' :: rest =>
      let name := rest.takeWhile fun c => c.isAlphanum || c = '_'
      match rest.drop name.length with
      | '>' :: body => if name = [] then none else group true flags body
      | _ => none
    | '(' :: '?' :: rest =>
      match parseFlags false false flags rest with
      | some (flags2, true, body) => group false flags2 body
      | some (flags2, false, rest2) => some (.eps, false, flags2, rest2)
      | none => none
    | '(' :: rest => group true flags rest
    | '[' :: rest =>
      match parseClass flags rest with
      | some (re, rest2) => atom re rest2
      | none => none
    | '.' :: rest => atom (.set false true (if flags.s then [] else [.range 10 10])) rest
    | '^' :: rest => atom (.assert (if flags.m then .beginLine else .beginText)) rest
    | '$' :: rest => atom (.assert (if flags.m then .endLine else .endText)) rest
    | '*' :: _ => none
    | '+' :: _ => none
    | '?' :: _ => none
    | '\\' :: 'A' :: rest => atom (.assert .beginText) rest
    | '\\' :: 'z' :: rest => atom (.assert .endText) rest
    | '\\' :: 'b' :: rest => atom (.assert .wordBoundary) rest
    | '\\' :: 'B' :: rest => atom (.assert .noWordBoundary) rest
    | '\\' :: 'Q' :: [] => some (.eps, false, flags, [])
    | '\\' :: 'Q' :: '\\' :: 'E' :: rest => some (.eps, false, flags, rest)
    | '\\' :: 'Q' :: c :: rest =>
      if rest = [] ∨ rest.take 2 = ['\\', 'E'] then
        atom (.set flags.i false [.range c.toNat c.toNat]) (rest.drop 2)
      else some (.set flags.i false [.range c.toNat c.toNat], false, flags, '\\' :: 'Q' :: rest)
    | '\\' :: rest =>
      match rest.head?.bind perlClass with
      | some items => atom (.set false false items) (rest.drop 1)
      | none =>
        match escapedChar rest with
        | some (c, rest2) => atom (.set flags.i false [.range c c]) rest2
        | none => none
    | c :: rest => atom (.set flags.i false [.range c.toNat c.toNat]) rest

/-- What compiling an expression gives: the expression, and whether it has capturing
groups. -/
def Compile (pattern : List Char) : Option (Regex × Bool) :=
  match parse (3 * pattern.length + 3) .alternation {} pattern with
  | some (re, captures, _, []) => some (re, captures)
  | _ => none

/-- Whether the whole of `text` matches the expression. -/
def MatchString (pattern text : String) : Bool :=
  match Compile pattern.data with
  | some (re, _) => re.run none text.data fun _ rest => rest.isEmpty
  | none => false

end regexp

/-! ## `github.com/gorilla/mux`: path templates, routes, routers

The part of the router library the repository relies on. A path template is literal text with
variables: `{name}` stands for the regular expression `[^/]+`, `{name:pattern}` for the
expression `pattern`, which must compile and have no capturing group. -/
namespace mux

/-- A piece of a path template. -/
inductive Part
  | lit (s : List Char)
  | var (name : List Char)
  | varPattern (name pattern : List Char)
  deriving DecidableEq, Repr

/-- The variable between a pair of braces, split at the first colon into its name and its
pattern: neither may be empty, and a pattern must compile (`varsR`). -/
def mkVar (body : List Char) : Option Part :=
  let name := body.takeWhile fun c => c != ':'
  if name = [] then none
  else if name.length = body.length then some (.var name)
  else
    let pattern := body.drop (name.length + 1)
    if pattern = [] then none
    else
      match regexp.Compile pattern with
      | some _ => some (.varPattern name pattern)
      | none => none

/-- Whether the pattern of a variable has a capturing group. -/
def Part.captures : Part → Bool
  | .varPattern _ pattern =>
    match regexp.Compile pattern with
    | some (_, captures) => captures
    | none => false
  | _ => false

/-- Splits a template at its braces, like `braceIndices` and the loop of `newRouteRegexp`:
`level` is the nesting depth, `cur` the text read since the last boundary. Unbalanced braces
are an error. -/
def scan : Nat → List Char → List Part → List Char → Option (List Part)
  | 0, cur, parts, [] => some (parts ++ [.lit cur])
  | _ + 1, _, _, [] => none
  | 0, cur, parts, c :: cs =>
    if c = '{' then scan 1 [] (parts ++ [.lit cur]) cs
    else if c = '}' then none
    else scan 0 (cur ++ [c]) parts cs
  | l + 1, cur, parts, c :: cs =>
    if c = '{' then scan (l + 2) (cur ++ [c]) parts cs
    else if c = '}' then
      match l with
      | 0 =>
        match mkVar cur with
        | none => none
        | some v => scan 0 [] (parts ++ [v]) cs
      | l' + 1 => scan (l' + 1) (cur ++ [c]) parts cs
    else scan (l + 1) (cur ++ [c]) parts cs

/-- What a route's path expression is matched against: the whole path (`Path`) or a prefix
of it (`PathPrefix`). -/
inductive RegexpType
  | path
  | pathPrefix
  deriving DecidableEq, Repr

/-- A compiled path template (`routeRegexp`). -/
structure RouteRegexp where
  template : String
  regexpType : RegexpType
  strictSlash : Bool
  parts : List Part
  deriving DecidableEq, Repr

/-- What `newRouteRegexp` comes to: the compiled template, an error, or a panic. The texts
are not those of mux. -/
inductive Compiled
  | ok (rr : RouteRegexp)
  | error (msg : String)
  | panic (msg : String)
  deriving DecidableEq, Repr

/-- The function `newRouteRegexp`, for paths and path prefixes. Strict slash only applies to
whole paths; with it a slash at the end of the template is dropped and the expression ends
in `[/]?`. Unbalanced braces, a variable without a name or with an empty pattern, and a
pattern that does not compile are errors; when the template has compiled, a capturing group
in it (`reg.NumSubexp() != len(idxs)/2`) is a panic. -/
def newRouteRegexp (tpl : String) (typ : RegexpType) (strictSlash : Bool) : Compiled :=
  let strict := decide (typ = .path) && strictSlash
  let t := tpl.data
  let t := if strict && t.getLast? = some '/' then t.dropLast else t
  match scan 0 [] [] t with
  | none => .error ("mux: malformed template " ++ tpl)
  | some parts =>
    if parts.any Part.captures then
      .panic ("route " ++ tpl ++ " contains capture groups in its regexp")
    else .ok { template := tpl, regexpType := typ, strictSlash := strict, parts := parts }

/-- Removes `pre` from the front of `cs`, if it is there. -/
def stripPrefix : List Char → List Char → Option (List Char)
  | [], cs => some cs
  | _ :: _, [] => none
  | p :: ps, c :: cs => if p = c then stripPrefix ps cs else none

/-- The expression `[^/]+` followed by `k`, which is given the last character read. -/
def matchVar (k : Option Char → List Char → Bool) : List Char → Bool
  | [] => false
  | c :: cs => c != '/' && (k (some c) cs || matchVar k cs)

/-- The compiled expression against a path: literal text, `[^/]+` for a variable without a
pattern, the pattern of a variable that has one, `fin` for what may follow the last part.
`prev` is the character of the path before `cs`. -/
def matchParts (fin : List Char → Bool) : List Part → Option Char → List Char → Bool
  | [], _, cs => fin cs
  | .lit s :: ps, prev, cs =>
    match stripPrefix s cs with
    | some rest => matchParts fin ps (if s = [] then prev else s.getLast?) rest
    | none => false
  | .var _ :: ps, _, cs => matchVar (matchParts fin ps) cs
  | .varPattern _ pattern :: ps, prev, cs =>
    match regexp.Compile pattern with
    | some (re, _) => re.run prev cs (matchParts fin ps)
    | none => false

/-- The end of the expression: `$` for a whole path, `[/]?$` with strict slash, nothing for a
prefix. -/
def matchEnd (typ : RegexpType) (strict : Bool) (rest : List Char) : Bool :=
  match typ with
  | .pathPrefix => true
  | .path => decide (rest = []) || (strict && decide (rest = ['/']))

/-- The method `routeRegexp.Match` for a path. -/
def RouteRegexp.Match (rr : RouteRegexp) (path : String) : Bool :=
  matchParts (matchEnd rr.regexpType rr.strictSlash) rr.parts none path.data

/-- Go's `strings.TrimRight(s, "/")`. -/
def trimRightSlash (s : String) : String :=
  ⟨(s.data.reverse.dropWhile (· = '/')).reverse⟩

/-- Go's `strings.ToUpper`, for ASCII letters. -/
def ToUpper (s : String) : String :=
  ⟨s.data.map Char.toUpper⟩

/-- A route (`mux.Route`) with handlers of type `η`: what it inherits from its router (strict
slash, the path template of a subrouter's prefix), its method matchers (one per call of
`Methods`, each the methods it lets through), its path expression, its name (`named`: the
route was entered in the index of named routes), its handler and its error. `panicked`: the
error is a panic of `newRouteRegexp`. The program ends in the panic; the route is kept with
the message of the panic as its error so that the functions below are total. -/
structure Route (η : Type) where
  strictSlash : Bool
  parentTemplate : Option String
  methods : List (List String) := []
  path : Option RouteRegexp := none
  name : String := ""
  named : Bool := false
  handler : Option η := none
  err : Option String := none
  panicked : Bool := false

/-- A router (`mux.Router`): its routes in the order they were added, and its index of named
routes (a Go map: one entry for a name, the latest). `panicked`: building one of its routes
ended in a panic; the program never gets to use such a router. -/
structure Router (η : Type) where
  strictSlash : Bool := false
  parentTemplate : Option String := none
  routes : List (Route η) := []
  namedRoutes : List (String × Route η) := []
  panicked : Bool := false

/-- The function `mux.NewRouter`. -/
def NewRouter {η : Type} : Router η := {}

/-- The method `Router.StrictSlash`. -/
def Router.StrictSlash {η : Type} (r : Router η) (value : Bool) : Router η :=
  { r with strictSlash := value }

/-- The method `Router.NewRoute`, without adding the route to the router yet: see
`Router.add`. -/
def Router.NewRoute {η : Type} (r : Router η) : Route η :=
  { strictSlash := r.strictSlash, parentTemplate := r.parentTemplate }

/-- The method `Route.addRegexpMatcher` for a path or a path prefix: the template must start
with a slash, and is appended to the template inherited from the router. -/
def Route.addRegexpMatcher {η : Type} (r : Route η) (tpl : String) (typ : RegexpType) :
    Route η :=
  if r.err.isSome then r
  else if tpl.data ≠ [] ∧ tpl.data.head? ≠ some '/' then
    { r with err := some ("mux: path must start with a slash, got " ++ tpl) }
  else
    let inherited :=
      match r.path with
      | some p => some p.template
      | none => r.parentTemplate
    let tpl :=
      match inherited with
      | some t => trimRightSlash t ++ tpl
      | none => tpl
    match newRouteRegexp tpl typ r.strictSlash with
    | .error msg => { r with err := some msg }
    | .panic msg => { r with err := some msg, panicked := true }
    | .ok rr => { r with path := some rr }

/-- The method `Route.Path`. -/
def Route.Path {η : Type} (r : Route η) (tpl : String) : Route η :=
  r.addRegexpMatcher tpl .path

/-- The method `Route.PathPrefix`. -/
def Route.PathPrefix {η : Type} (r : Route η) (tpl : String) : Route η :=
  r.addRegexpMatcher tpl .pathPrefix

/-- The method `Route.Methods`: one more matcher, for the methods given, in upper case. -/
def Route.Methods {η : Type} (r : Route η) (methods : List String) : Route η :=
  if r.err.isSome then r
  else { r with methods := r.methods ++ [methods.map ToUpper] }

/-- The method `Route.Name`: a route is named once; nothing is checked against the names of
other routes. -/
def Route.Name {η : Type} (r : Route η) (name : String) : Route η :=
  let r := if r.name ≠ "" then
      { r with err := some ("mux: route already has name " ++ r.name) }
    else r
  if r.err.isSome then r else { r with name := name, named := true }

/-- The method `Route.Handler`. -/
def Route.Handler {η : Type} (r : Route η) (handler : η) : Route η :=
  if r.err.isSome then r else { r with handler := some handler }

/-- Assignment to a Go map: the entry of the key is replaced or added. -/
def mapSet {α : Type} (m : List (String × α)) (key : String) (value : α) :
    List (String × α) :=
  m.filter (fun e => e.1 != key) ++ [(key, value)]

/-- A route built by `r.NewRoute()` and the calls chained to it becomes part of the router:
it is appended to `routes`, and, when `Name` gave it a name, `namedRoutes[name]` is set to
it. -/
def Router.add {η : Type} (r : Router η) (route : Route η) : Router η :=
  { r with
    routes := r.routes ++ [route]
    namedRoutes :=
      if route.named then mapSet r.namedRoutes route.name route else r.namedRoutes
    panicked := r.panicked || route.panicked }

/-- The method `Route.Subrouter`: a router whose routes inherit the route's path template. -/
def Route.Subrouter {η : Type} (r : Route η) : Router η :=
  { strictSlash := r.strictSlash
    parentTemplate :=
      match r.path with
      | some p => some p.template
      | none => r.parentTemplate
    panicked := r.panicked }

/-- The outcome of `Route.Match`. -/
inductive RouteMatch
  | no
  | methodMismatch
  | yes (redirect : Option String)
  deriving DecidableEq, Repr

/-- The redirect of a strict-slash route: when the path and the template do not agree on the
slash at the end, the request is redirected to the path with the slash added or removed. -/
def slashRedirect (rr : RouteRegexp) (path : String) : Option String :=
  if rr.strictSlash then
    let p1 := decide (path.data.getLast? = some '/')
    let p2 := decide (rr.template.data.getLast? = some '/')
    if p1 = p2 then none
    else if p1 then some ⟨path.data.dropLast⟩
    else some (path ++ "/")
  else none

/-- The method `Route.Match`: a route with an error matches nothing; a route whose path
matches but whose method does not reports the method mismatch. -/
def Route.Match {η : Type} (r : Route η) (method path : String) : RouteMatch :=
  if r.err.isSome then .no
  else
    let pathOk :=
      match r.path with
      | none => true
      | some rr => rr.Match path
    let methodOk := r.methods.all fun ms => ms.contains method
    if !pathOk then .no
    else if !methodOk then .methodMismatch
    else
      .yes (match r.path with
        | none => none
        | some rr => slashRedirect rr path)

/-- What a router answers a request with. -/
inductive Matched (η : Type)
  | handler (h : η)
  | redirect (url : String)
  | notFound
  | methodNotAllowed
  deriving DecidableEq, Repr

/-- The loop of `Router.Match`: the first route that matches wins. -/
def matchRoutes {η : Type} (method path : String) : List (Route η) → Bool → Matched η
  | [], mismatch => if mismatch then .methodNotAllowed else .notFound
  | rt :: rest, mismatch =>
    match rt.Match method path with
    | .no => matchRoutes method path rest mismatch
    | .methodMismatch => matchRoutes method path rest true
    | .yes (some url) => .redirect url
    | .yes none =>
      match rt.handler with
      | some h => .handler h
      | none => .notFound

/-- The method `Router.Match` followed by the choice of the handler in `Router.ServeHTTP`,
for a request whose path is in canonical form. -/
def Router.Match {η : Type} (r : Router η) (method path : String) : Matched η :=
  matchRoutes method path r.routes false

/-- The route matches the request in full: path and method. -/
def RouteMatch.isYes : RouteMatch → Bool
  | .yes _ => true
  | _ => false

/-- The routes of a router that match a request. -/
def Router.matching {η : Type} (r : Router η) (method path : String) : List (Route η) :=
  r.routes.filter fun rt => (rt.Match method path).isYes

end mux

/-! ## `api/api.go`, `api/internal.go`: the route tables and the routers -/
namespace api

/-- The struct `route`. `HandlerFunc` is the name of the handler function. -/
structure route where
  Name : String
  Method : String
  Pattern : String
  HandlerFunc : String
  Capability : Option String := none
  deriving DecidableEq, Repr

/-- The constant `CregisterResourceProvider`. -/
def CregisterResourceProvider : String := "registerResourceProvider"

/-- The table `internalRoutes` of `internal.go`. -/
def internalRoutes : List route :=
  [ { Name := "getOwnResources", Method := "GET", Pattern := "/internal/resource",
      HandlerFunc := "getOwnResources" },
    { Name := "createResource", Method := "POST", Pattern := "/internal/resource",
      HandlerFunc := "createResource" },
    { Name := "deleteResource", Method := "DELETE",
      Pattern := "/internal/resource/\x7bresourceID\x7d", HandlerFunc := "deleteResource" },
    { Name := CregisterResourceProvider, Method := "POST", Pattern := "/internal/provider",
      HandlerFunc := "registerResourceProvider" },
    { Name := "deregisterResourceProvider", Method := "DELETE",
      Pattern := "/internal/provider", HandlerFunc := "deregisterResourceProvider" },
    { Name := "getProviderResources", Method := "GET",
      Pattern := "/internal/resource/provider", HandlerFunc := "getProviderResources" },
    { Name := "setResourceStatus", Method := "POST",
      Pattern := "/internal/resource/\x7bresourceID\x7d", HandlerFunc := "setResourceStatus" },
    { Name := "getResource", Method := "GET",
      Pattern := "/internal/resource/\x7bresourceID\x7d", HandlerFunc := "getResource" } ]

/-- The route tables of the package that are declared in other files of it. -/
structure Tables where
  internalWSRoutes : List route
  externalRoutes : List route
  externalInitRoutes : List route
  externalWSRoutes : List route

/-- The calls of `capability.SetMethodCap`, in order: route name and capability. -/
abbrev MethodCaps := List (String × String)

/-- The body of the loop of `applyAPIroutes`, for one route of the list. -/
def applyAPIroute (st : mux.Router String × MethodCaps) (route : route) :
    mux.Router String × MethodCaps :=
  let r := st.1
  let r :=
    if route.Method != "" then
      -- if route method is set (GET, POST etc), the route is only valid for that method
      r.add ((((r.NewRoute.Methods [route.Method]).Path route.Pattern).Name
        route.Name).Handler route.HandlerFunc)
    else
      -- if route method is not set, it will work for all methods. Useful for WS
      r.add (((r.NewRoute.Path route.Pattern).Name route.Name).Handler route.HandlerFunc)
  match route.Capability with
  | some cap => (r, st.2 ++ [(route.Name, cap)])
  | none => (r, st.2)

/-- The function `applyAPIroutes`. -/
def applyAPIroutes (r : mux.Router String) (caps : MethodCaps) (routes : List route) :
    mux.Router String × MethodCaps :=
  routes.foldl applyAPIroute (r, caps)

/-- The routers a web server is built from: the main router and the three routers mounted
in it. Go mounts a pointer to a router, so routes added to the router later are served too;
here the main router refers to the mounted router by its place in this record. -/
inductive RouterRef
  | authRouter
  | internalRouter
  | externalRouter
  deriving DecidableEq, Repr

/-- What a route of the main router hands the request to: a handler function, or a router
behind a chain of `negroni` middleware. -/
inductive Mounted
  | handlerFunc (name : String)
  | router (middleware : List String) (ref : RouterRef)
  deriving DecidableEq, Repr

/-- The routers of a web server and the capabilities bound to route names. -/
structure Routers where
  mainRtr : mux.Router Mounted
  authRouter : mux.Router String := {}
  internalRouter : mux.Router String := {}
  externalRouter : mux.Router String := {}
  methodCaps : MethodCaps := []

/-- The router a reference stands for. -/
def Routers.get (s : Routers) : RouterRef → mux.Router String
  | .authRouter => s.authRouter
  | .internalRouter => s.internalRouter
  | .externalRouter => s.externalRouter

/-- The function `applyAuthRoutes`. -/
def applyAuthRoutes (s : Routers) (enableRegister : Bool) : Routers :=
  -- Authentication routes
  let authRouter : mux.Router String :=
    ((mux.NewRouter (η := String)).NewRoute.PathPrefix "/api/v1/auth").Subrouter.StrictSlash
      true
  let authRouter :=
    if enableRegister == true then
      authRouter.add ((((authRouter.NewRoute.Methods ["POST"]).Path "/register").Name
        "register").Handler "RegisterHandler")
    else authRouter
  let authRouter :=
    authRouter.add ((((authRouter.NewRoute.Methods ["POST"]).Path "/login").Name
      "login").Handler "LoginHandler")
  { s with
    authRouter := authRouter
    mainRtr := s.mainRtr.add
      ((s.mainRtr.NewRoute.PathPrefix "/api/v1/auth").Handler (.router [] .authRouter)) }

/-- The body of the loop of `applyInternalAPIroutes`. -/
def applyInternalAPIroute (st : mux.Router String × MethodCaps) (route : route) :
    mux.Router String × MethodCaps :=
  let r := st.1
  let r := r.add ((((r.NewRoute.Methods [route.Method]).Path route.Pattern).Name
    route.Name).Handler route.HandlerFunc)
  match route.Capability with
  | some cap => (r, st.2 ++ [(route.Name, cap)])
  | none => (r, st.2)

/-- The function `applyInternalAPIroutes`. The router it returns is `internalRouter` of the
result. -/
def applyInternalAPIroutes (s : Routers) : Routers :=
  -- Internal routes
  let internalRouter : mux.Router String :=
    ((mux.NewRouter (η := String)).NewRoute.PathPrefix "/api/v1/i").Subrouter.StrictSlash true
  let looped := internalRoutes.foldl applyInternalAPIroute (internalRouter, s.methodCaps)
  { s with
    internalRouter := looped.1
    methodCaps := looped.2
    mainRtr := s.mainRtr.add
      ((s.mainRtr.NewRoute.PathPrefix "/api/v1/i").Handler
        (.router ["InternalRequestValidator"] .internalRouter)) }

/-- The function `applyExternalAPIroutes`. The router it returns is `externalRouter` of the
result. -/
def applyExternalAPIroutes (externalRoutes : List route) (s : Routers) : Routers :=
  -- External routes (require auth)
  let externalRouter : mux.Router String :=
    ((mux.NewRouter (η := String)).NewRoute.PathPrefix "/api/v1/e").Subrouter.StrictSlash true
  let looped := externalRoutes.foldl applyAPIroute (externalRouter, s.methodCaps)
  { s with
    externalRouter := looped.1
    methodCaps := looped.2
    mainRtr := s.mainRtr.add
      ((s.mainRtr.NewRoute.PathPrefix "/api/v1/e").Handler
        (.router ["ExternalRequestValidator"] .externalRouter)) }

/-- What `applyStaticRoutes` gets from the `statik` package: the error of `fs.New()` and of
opening `/index.html` in the embedded file system (`none`: no error). -/
structure Statik where
  New : Option String
  OpenIndex : Option String

/-- The function `applyStaticRoutes`. It ends in `log.Fatal` when the embedded assets cannot
be opened. -/
def applyStaticRoutes (gconfig : Config) (statik : Statik) (s : Routers) :
    Except String Routers :=
  -- UI routes
  let ui : Except String (mux.Router Mounted) :=
    if gconfig.StaticAssets != "" then
      .ok (s.mainRtr.add (((s.mainRtr.NewRoute.PathPrefix "/ui/").Name "ui").Handler
        (.handlerFunc "uiHandler")))
    else
      match statik.New with
      | some err => .error err
      | none =>
        match statik.OpenIndex with
        | some err => .error ("Failed to open the embedded index.html file: " ++ err)
        | none =>
          .ok (s.mainRtr.add (((s.mainRtr.NewRoute.PathPrefix "/ui/").Name "ui").Handler
            (.handlerFunc "ServeContent index.html")))
  match ui with
  | .error err => .error err
  | .ok r =>
    let r := r.add (((r.NewRoute.PathPrefix "/static/").Name "static").Handler
      (.handlerFunc "StripPrefix /static/ fileHandler"))
    let r := r.add (((r.NewRoute.PathPrefix "/").Name "root").Handler
      (.handlerFunc "uiRedirect"))
    .ok { s with mainRtr := r }

/-- A `negroni` chain in front of the routers: `n.Use(...)`, `n.UseHandler(mainRtr)`. -/
structure Negroni where
  middleware : List String
  routers : Routers

/-- The handler `Websrv` builds before it starts listening. -/
def WebsrvHandler (gconfig : Config) (statik : Statik) (tables : Tables) :
    Except String Negroni :=
  let s : Routers := { mainRtr := (mux.NewRouter (η := Mounted)).StrictSlash true }
  let s := applyAuthRoutes s false
  let s := applyInternalAPIroutes s
  let s :=
    let looped := applyAPIroutes s.internalRouter s.methodCaps tables.internalWSRoutes
    { s with internalRouter := looped.1, methodCaps := looped.2 }
  let s := applyExternalAPIroutes tables.externalRoutes s
  let s :=
    let looped := applyAPIroutes s.externalRouter s.methodCaps tables.externalWSRoutes
    { s with externalRouter := looped.1, methodCaps := looped.2 }
  match applyStaticRoutes gconfig statik s with
  | .error err => .error err
  | .ok s =>
    -- Negroni middleware
    .ok { middleware := ["HTTPLogger"], routers := s }

/-- The handler `WebsrvInit` builds before it starts listening. -/
def WebsrvInitHandler (gconfig : Config) (statik : Statik) (tables : Tables) :
    Except String Negroni :=
  let s : Routers := { mainRtr := (mux.NewRouter (η := Mounted)).StrictSlash true }
  let s := applyAuthRoutes s true
  let s := applyInternalAPIroutes s
  let s :=
    let looped := applyAPIroutes s.internalRouter s.methodCaps tables.internalWSRoutes
    { s with internalRouter := looped.1, methodCaps := looped.2 }
  let s := applyExternalAPIroutes tables.externalRoutes s
  let s :=
    let looped := applyAPIroutes s.externalRouter s.methodCaps tables.externalInitRoutes
    { s with externalRouter := looped.1, methodCaps := looped.2 }
  let s :=
    let looped := applyAPIroutes s.externalRouter s.methodCaps tables.externalWSRoutes
    { s with externalRouter := looped.1, methodCaps := looped.2 }
  match applyStaticRoutes gconfig statik s with
  | .error err => .error err
  | .ok s =>
    -- Negroni middleware
    .ok { middleware := ["HTTPLogger"], routers := s }

/-- Who answers a request: the middleware it passes, in order, and the handler, redirect or
error response the router at the end of the chain selects. A middleware that validates the
request may answer itself instead of passing it on. -/
structure Served where
  middleware : List String
  response : mux.Matched String
  deriving DecidableEq, Repr

/-- The method `ServeHTTP` of the handler a web server listens with, for a request whose path
is in canonical form: the main router selects a route, and a mounted router selects again. -/
def Negroni.ServeHTTP (n : Negroni) (method path : String) : Served :=
  match n.routers.mainRtr.Match method path with
  | .handler (.handlerFunc f) => { middleware := n.middleware, response := .handler f }
  | .handler (.router mw ref) =>
    { middleware := n.middleware ++ mw, response := (n.routers.get ref).Match method path }
  | .redirect url => { middleware := n.middleware, response := .redirect url }
  | .notFound => { middleware := n.middleware, response := .notFound }
  | .methodNotAllowed => { middleware := n.middleware, response := .methodNotAllowed }

/-- The names of the routes of a router. -/
def routeNames {η : Type} (r : mux.Router η) : List String :=
  r.routes.map fun rt => rt.name


/-- A route as `applyInternalAPIroutes` registers it, written out: a strict-slash route of the
router mounted at `/api/v1/i` with one method, a compiled path, a name and a handler. Used to
state what the registration of `internalRoutes` produces. -/
def internalRoute (name method : String) (template : String) (parts : List mux.Part)
    (handler : String) : mux.Route String :=
  { strictSlash := true
    parentTemplate := some "/api/v1/i"
    methods := [[method]]
    path := some
      { template := template, regexpType := .path, strictSlash := true, parts := parts }
    name := name
    named := true
    handler := some handler
    err := none }


/-- The function `Websrv`: it builds the handler and listens with the certificate of
`meta.GetTLSCertificate()`, here `certrsc`. -/
def Websrv {κ : Type} (gconfig : Config) (statik : Statik) (tables : Tables) (env : Env κ)
    (certrsc : Option CertificateResource) (quit : Bool) :
    Except String (List (Effect Negroni κ)) :=
  match WebsrvHandler gconfig statik tables with
  | .error err => .error err
  | .ok n => secureListen gconfig env n certrsc quit

/-- The function `WebsrvInit`: it builds the handler, serves it on `0.0.0.0:HTTPport` until a
value arrives on the quit channel, shuts the server down and returns that value. `listenErr`
and `shutdownErr` are the errors of `ListenAndServe` and `Shutdown`. -/
def WebsrvInit (gconfig : Config) (statik : Statik) (tables : Tables)
    (listenErr shutdownErr : Option String) (quit : Bool) :
    Except String (List (Effect Negroni Unit) × Bool) :=
  match WebsrvInitHandler gconfig statik tables with
  | .error err => .error err
  | .ok n =>
    let httpport := Itoa gconfig.HTTPport
    let srv : http.Server Negroni Unit :=
      { Addr := "0.0.0.0:" ++ httpport, Handler := n, ReadTimeout := some 10,
        WriteTimeout := some 10, MaxHeaderBytes := some (1 <<< 20) }
    let served : List (Effect Negroni Unit) :=
      match listenErr with
      | none => []
      | some e =>
        if Contains e "Server closed" then [.logInfo "Init webserver terminated successfully"]
        else [.logError ("Init webserver died with error: " ++ e)]
    let interrupted := quit
    .ok ([.logInfo ("Starting init webserver on " ++ srv.Addr),
          .goListenAndServe srv served,
          .recvQuit interrupted,
          .logInfo "Shutting down init webserver",
          .shutdown srv context.Background]
          ++ (match shutdownErr with
              | none => []
              | some e =>
                [.logError
                  ("Something went wrong while shutting down the init webserver: " ++ e)]),
        interrupted)

end api

/-! ## `daemon/daemon.go` -/
namespace daemon

/-- What the main goroutine of `StartUp` does, in program order. -/
inductive Action
  /-- The statement `signal.Notify(sigs, syscall.SIGINT, syscall.SIGTERM)`. -/
  | signalNotify
  /-- The statement `go catchSignals(sigs)`. -/
  | goCatchSignals
  /-- A call into another package that returns nothing `StartUp` looks at. -/
  | call (function : String)
  | logInfo (msg : String)
  /-- An assignment to `gconfig.InitMode`. -/
  | setInitMode (value : Bool)
  /-- The statement `wg.Add(1)`. -/
  | wgAdd
  /-- The statement `wg.Done()` of `StartUp` itself. -/
  | wgDone
  /-- The statement `wg.Wait()`. -/
  | wgWait
  /-- The statement `gconfig.ProcsQuit[name] = make(chan bool, capacity)`. -/
  | makeQuitChan (name : String) (capacity : Nat)
  /-- The statement `run(&wg, manager, gconfig.ProcsQuit[name])`. -/
  | run (manager : String) (name : String)
  /-- The call `api.WebsrvInit(gconfig.ProcsQuit["initwebserver"])` and what it returned. -/
  | websrvInit (interrupted : Bool)
  /-- The process ends in `log.Fatal`. -/
  | fatal (msg : String)
  deriving DecidableEq, Repr

/-- What `StartUp` gets from outside `daemon.go`. -/
structure Env where
  /-- The result of `database.Exists()`. -/
  dbExists : Bool
  /-- The error of `util.GenerateRandomBytes(32)` (`none`: no error). -/
  secretErr : Option String
  gconfig : api.Config
  statik : api.Statik
  tables : api.Tables
  /-- The errors of `ListenAndServe` and `Shutdown` of the init web server. -/
  initListenErr : Option String
  initShutdownErr : Option String
  /-- The value that arrives on the quit channel of the init web server: `true` from
  `catchSignals`, `false` when the initialisation is complete. -/
  initQuit : Bool

/-- The statements of `StartUp` after `app.Init()` and `task.Init()`, from
`wg.Add(1)` for the connection manager on. `InitMode` is `gconfig.InitMode`. -/
def serve (env : Env) (InitMode : Bool) : List Action :=
  -- start ws connection manager
  let wsmanager : List Action :=
    [.wgAdd, .makeQuitChan "wsmanager" 1, .run "api.WSManager" "wsmanager"]
  let normal : List Action :=
    [.logInfo "Finished initialisation. Resuming normal operations",
     .setInitMode false,
     .call "meta.InitCheck",
     -- start tls web server
     .wgAdd, .makeQuitChan "webserver" 0, .run "api.Websrv" "webserver"]
  let finish : List Action :=
    [.wgWait, .logInfo "Terminating...", .call "database.Close"]
  if InitMode then
    -- run the init webserver in blocking mode
    match api.WebsrvInit env.gconfig env.statik env.tables env.initListenErr
        env.initShutdownErr env.initQuit with
    | .error err => wsmanager ++ [.makeQuitChan "initwebserver" 1, .wgAdd, .fatal err]
    | .ok (_, initInterrupted) =>
      wsmanager
        ++ [.makeQuitChan "initwebserver" 1, .wgAdd, .websrvInit initInterrupted, .wgDone]
        ++ (if initInterrupted == false then normal else [])
        ++ finish
  else
    wsmanager ++ normal ++ finish

/-- The function `StartUp`: what its goroutine does, in order. The deferred
`database.Close()` runs when the function returns, not when the process ends in
`log.Fatal`. -/
def StartUp (env : Env) (init : Bool) : List Action :=
  let InitMode := (env.dbExists == false) || init
  [Action.signalNotify, .goCatchSignals,
   -- Load config and print banner
   .call "config.Load", .logInfo "Starting up...",
   .setInitMode InitMode, .call "meta.PrintBanner",
   -- Generate secret key used for JWT
   .logInfo "Generating secret for JWT", .call "util.GenerateRandomBytes"]
  ++
  match env.secretErr with
  | some err => [.fatal err]
  | none =>
    -- open databse
    [Action.call "database.Open"]
    -- If db does not exist or init is set to true, need to run in init mode
    ++ (if InitMode then
          [Action.logInfo
            "Database file doesn't exists or init mode requested. Running in web init mode",
           .call "meta.Setup"]
        else [])
    ++ [.call "capability.Initialize", .call "platform.Initialize", .call "resource.Init",
        .call "provider.LoadProvidersDB", .call "app.Init", .call "task.Init"]
    ++ serve env InitMode

/-- The managers `StartUp` has started with `run`, in order. -/
def started (prog : List Action) : List String :=
  prog.filterMap fun
    | .run manager _ => some manager
    | _ => none

/-- The results of the calls of `api.WebsrvInit` that returned. -/
def initReturns (prog : List Action) : List Bool :=
  prog.filterMap fun
    | .websrvInit interrupted => some interrupted
    | _ => none

/-- The values assigned to `gconfig.InitMode`, in order. -/
def initModeWrites (prog : List Action) : List Bool :=
  prog.filterMap fun
    | .setInitMode value => some value
    | _ => none

/-- The process ended in `log.Fatal`. -/
def endsFatal (prog : List Action) : Bool :=
  prog.any fun
    | .fatal _ => true
    | _ => false

/-! ### The subsystem registry and `catchSignals` -/

/-- The state of a run of `StartUp`: what the main goroutine still has to do, the counter
of the wait group `wg`, the calls of `wg.Add(1)` and `wg.Done()` made so far, and the
goroutines started by `run`: those whose manager is running, those whose manager has returned
and whose `wg.Done()` is still to come, and those that are done. -/
structure State where
  todo : List Action
  wg : Int := 0
  adds : Nat := 0
  dones : Nat := 0
  running : List String := []
  returned : List String := []
  finished : List String := []
  passedWait : Bool := false
  deriving DecidableEq, Repr

/-- The state in which a program starts. -/
def State.initial (prog : List Action) : State := { todo := prog }

/-- The process has ended in `log.Fatal`. -/
def State.dead (s : State) : Bool :=
  match s.todo with
  | .fatal _ :: _ => true
  | _ => false

/-- The next statement of the main goroutine. `wg.Wait()` blocks while the counter is not
zero; `run` starts a goroutine and returns at once. -/
def mainStep (s : State) : Option State :=
  match s.todo with
  | [] => none
  | .fatal _ :: _ => none
  | .wgAdd :: rest => some { s with todo := rest, wg := s.wg + 1, adds := s.adds + 1 }
  | .wgDone :: rest => some { s with todo := rest, wg := s.wg - 1, dones := s.dones + 1 }
  | .wgWait :: rest =>
    if s.wg = 0 then some { s with todo := rest, passedWait := true } else none
  | .run manager _ :: rest => some { s with todo := rest, running := s.running ++ [manager] }
  | _ :: rest => some { s with todo := rest }

/-- The goroutine of `run`, first half: `manager(quit)` returns. -/
def returnStep (i : Nat) (s : State) : Option State :=
  if s.dead then none
  else
    match s.running[i]? with
    | none => none
    | some manager =>
      some { s with running := s.running.eraseIdx i, returned := s.returned ++ [manager] }

/-- The goroutine of `run`, second half: `wg.Done()`. -/
def doneStep (i : Nat) (s : State) : Option State :=
  if s.dead then none
  else
    match s.returned[i]? with
    | none => none
    | some manager =>
      some { s with
        returned := s.returned.eraseIdx i, finished := s.finished ++ [manager]
        wg := s.wg - 1, dones := s.dones + 1 }

/-- One step of the process: the main goroutine or one of the goroutines of `run`. -/
def Step (s t : State) : Prop :=
  mainStep s = some t ∨ (∃ i, returnStep i s = some t) ∨ (∃ i, doneStep i s = some t)

/-- The states a run can get to. -/
def Reachable (s t : State) : Prop := Relation.ReflTransGen Step s t

/-- A schedule: the main goroutine runs while it can, then the goroutines of `run` finish,
first in line first. -/
def schedule : Nat → State → State
  | 0, s => s
  | fuel + 1, s =>
    match mainStep s with
    | some t => schedule fuel t
    | none =>
      match doneStep 0 s with
      | some t => schedule fuel t
      | none =>
        match returnStep 0 s with
        | some t => schedule fuel t
        | none => s


/-- For the statements still to come: the calls of `wg.Done()` by `StartUp` and the goroutines
`run` will start, less the calls of `wg.Add(1)`. A program adds before it starts a goroutine
or calls `wg.Done()` when this is never negative. -/
def credit : List Action → Int
  | [] => 0
  | .wgAdd :: rest => credit rest - 1
  | .wgDone :: rest => credit rest + 1
  | .run _ _ :: rest => credit rest + 1
  | _ :: rest => credit rest

/-- The calls of `wg.Done()` by `StartUp` itself among the statements. -/
def ownDones : List Action → Nat
  | [] => 0
  | .wgDone :: rest => ownDones rest + 1
  | _ :: rest => ownDones rest

/-- The statements do not touch the wait group and start no goroutine. -/
def quiet : List Action → Bool
  | [] => true
  | .wgAdd :: _ => false
  | .wgDone :: _ => false
  | .run _ _ :: _ => false
  | _ :: rest => quiet rest

/-- The discipline of a program with a wait group: at every point of it the statements to
come have a credit of at least `base`, the credit of the whole program, so that no goroutine
is started and no `wg.Done()` is called before its `wg.Add(1)`; `base` is not positive; and
nothing after `wg.Wait()` touches the wait group. -/
def disciplined (base : Int) : List Action → Bool
  | [] => decide (base ≤ 0)
  | a :: rest =>
    decide (base ≤ credit (a :: rest)) && (a != .wgWait || quiet rest)
      && disciplined base rest

/-- The invariant of a run of the program `prog`. -/
structure Inv (prog : List Action) (s : State) : Prop where
  disc : disciplined (credit prog) s.todo = true
  counter : s.wg = s.running.length + s.returned.length + credit s.todo - credit prog
  calls : (s.adds : Int) - s.dones = s.wg
  waited : s.passedWait = true → quiet s.todo = true ∧ s.wg = 0
  launched : (started prog).Perm (s.finished ++ s.returned ++ s.running ++ started s.todo)
  dones : (s.dones : Int) + ownDones s.todo = s.finished.length + ownDones prog

end daemon

/-! ## `api/internal.go`: the handlers of the internal routes -/
namespace api

/-- A `http.ResponseWriter`: the status code written, if any, and the body written so far. -/
structure ResponseWriter where
  status : Option Nat := none
  body : String := ""
  deriving DecidableEq, Repr

/-- The method `WriteHeader`: the first status code written stays. -/
def ResponseWriter.WriteHeader (w : ResponseWriter) (code : Nat) : ResponseWriter :=
  match w.status with
  | none => { w with status := some code }
  | some _ => w

/-- The method `Write`: writing the body sends status 200 when no status was written. -/
def ResponseWriter.Write (w : ResponseWriter) (data : String) : ResponseWriter :=
  let w := w.WriteHeader 200
  { w with body := w.body ++ data }

/-- Go's `http.Error`: the status code, then the message and a line end as the body. -/
def Error (w : ResponseWriter) (error : String) (code : Nat) : ResponseWriter :=
  (w.WriteHeader code).Write (error ++ "\n")

def StatusOK : Nat := 200
def StatusInternalServerError : Nat := 500

/-- A request as the handlers of `internal.go` read it: the application in its context, the
result of reading its body, and the route variable `resourceID`. -/
structure Request where
  app : String
  body : Except String String
  resourceID : String

/-- What the handlers call outside `internal.go`: the JSON decoders and encoder, and the
functions of the daemon. An error is `some` message. -/
structure Collaborators where
  /-- Decoding the body into a `daemon.Provider`: its `Type`. -/
  decodeProvider : String → Except String String
  /-- Decoding the body into the status struct: its `Status`. -/
  decodeStatus : String → Except String String
  /-- What `json.NewEncoder(w).Encode` writes for a result of the daemon. -/
  encode : String → String
  RegisterProvider : String → String → Option String
  DeregisterProvider : String → String → Option String
  GetProviderResources : String → Except String String
  GetAppResources : String → String
  CreateResource : String → String → Except String String
  DeleteResource : String → String → Option String
  SetResourceStatus : String → String → String → Option String

/-- A call of a function of the daemon: its name and its arguments. -/
structure Call where
  function : String
  args : List String
  deriving DecidableEq, Repr

/-- What a handler has done when it returns: the response, the errors logged, the functions
of the daemon it called. -/
structure Handled where
  w : ResponseWriter
  logged : List String := []
  calls : List Call := []
  deriving DecidableEq, Repr

/-- The method `json.NewDecoder(r.Body).Decode`: reading the body can fail, then decoding
can. -/
def Decode (decoder : String → Except String String) (r : Request) : Except String String :=
  match r.body with
  | .error err => .error err
  | .ok data => decoder data

/-- The handler `registerResourceProvider`. -/
def registerResourceProvider (d : Collaborators) (w : ResponseWriter) (r : Request) :
    Handled :=
  let app := r.app
  match Decode d.decodeProvider r with
  | .error err => { w := Error w err StatusInternalServerError, logged := [err] }
  | .ok providerType =>
    let calls := [{ function := "daemon.RegisterProvider", args := [app, providerType] }]
    match d.RegisterProvider app providerType with
    | some err =>
      { w := Error w err StatusInternalServerError, logged := [err], calls := calls }
    | none => { w := w.WriteHeader StatusOK, calls := calls }

/-- The handler `deregisterResourceProvider`. -/
def deregisterResourceProvider (d : Collaborators) (w : ResponseWriter) (r : Request) :
    Handled :=
  let app := r.app
  match Decode d.decodeProvider r with
  | .error err => { w := Error w err StatusInternalServerError, logged := [err] }
  | .ok providerType =>
    let calls := [{ function := "daemon.DeregisterProvider", args := [app, providerType] }]
    match d.DeregisterProvider app providerType with
    | some err =>
      { w := Error w err StatusInternalServerError, logged := [err], calls := calls }
    | none => { w := w.WriteHeader StatusOK, calls := calls }

/-- The handler `getProviderResources`. -/
def getProviderResources (d : Collaborators) (w : ResponseWriter) (r : Request) : Handled :=
  let app := r.app
  let calls := [{ function := "daemon.GetProviderResources", args := [app] }]
  match d.GetProviderResources app with
  | .error err =>
    { w := Error w err StatusInternalServerError, logged := [err], calls := calls }
  | .ok resources => { w := w.Write (d.encode resources), calls := calls }

/-- The handler `getOwnResources`. -/
def getOwnResources (d : Collaborators) (w : ResponseWriter) (r : Request) : Handled :=
  let app := r.app
  let resources := d.GetAppResources app
  { w := w.Write (d.encode resources)
    calls := [{ function := "daemon.GetAppResources", args := [app] }] }

/-- The handler `createResource`. -/
def createResource (d : Collaborators) (w : ResponseWriter) (r : Request) : Handled :=
  let app := r.app
  match r.body with
  | .error err => { w := Error w err StatusInternalServerError, logged := [err] }
  | .ok bodyJSON =>
    let calls := [{ function := "app.CreateResource", args := [app, bodyJSON] }]
    match d.CreateResource app bodyJSON with
    | .error err =>
      { w := Error w err StatusInternalServerError, logged := [err], calls := calls }
    | .ok resource => { w := w.Write (d.encode resource), calls := calls }

/-- The handler `getResource`. -/
def getResource (_d : Collaborators) (w : ResponseWriter) (_r : Request) : Handled :=
  { w := w.WriteHeader StatusOK }

/-- The handler `deleteResource`. -/
def deleteResource (d : Collaborators) (w : ResponseWriter) (r : Request) : Handled :=
  let resourceID := r.resourceID
  let app := r.app
  let calls := [{ function := "app.DeleteResource", args := [app, resourceID] }]
  match d.DeleteResource app resourceID with
  | some err => { w := Error w err StatusInternalServerError, logged := [err], calls := calls }
  | none => { w := w.WriteHeader StatusOK, calls := calls }

/-- The handler `setResourceStatus`. -/
def setResourceStatus (d : Collaborators) (w : ResponseWriter) (r : Request) : Handled :=
  let resourceID := r.resourceID
  let app := r.app
  match Decode d.decodeStatus r with
  | .error err => { w := Error w err StatusInternalServerError, logged := [err] }
  | .ok status =>
    let calls := [{ function := "app.SetResourceStatus", args := [app, resourceID, status] }]
    match d.SetResourceStatus app resourceID status with
    | some err =>
      { w := Error w err StatusInternalServerError, logged := [err], calls := calls }
    | none => { w := w.WriteHeader StatusOK, calls := calls }

/-- The response a handler gives when a step fails with `err`: status 500 and the error
text, nothing else. -/
def errorResponse (err : String) : ResponseWriter :=
  { status := some StatusInternalServerError, body := err ++ "\n" }

end api

/-! # Theorems -/


namespace api

/-! ## The listeners of `secureListen` -/

section loop
variable {η κ : Type}

theorem listenStep_foldl (env : Env κ) (handler : η) (httpport : String) (ips : List String)
    (st : List (http.Server η κ) × List (Effect η κ)) :
    (ips.foldl (listenStep env handler httpport) st).1
        = st.1 ++ ips.map (fun ip => { Addr := ip ++ ":" ++ httpport, Handler := handler })
      ∧ launchedPlain (ips.foldl (listenStep env handler httpport) st).2
        = launchedPlain st.2
            ++ ips.map (fun ip => { Addr := ip ++ ":" ++ httpport, Handler := handler })
      ∧ launchedTLS (ips.foldl (listenStep env handler httpport) st).2 = launchedTLS st.2
      ∧ shutdownCalls (ips.foldl (listenStep env handler httpport) st).2
        = shutdownCalls st.2 := by
  induction ips generalizing st with
  | nil => simp
  | cons ip ips ih =>
    simp only [List.foldl_cons, List.map_cons]
    obtain ⟨h1, h2, h3, h4⟩ := ih (listenStep env handler httpport st ip)
    rw [h1, h2, h3, h4]
    simp [listenStep, launchedPlain, launchedTLS, shutdownCalls]

theorem shutdownCalls_flatMap (env : Env κ) (srvs : List (http.Server η κ)) :
    shutdownCalls (srvs.flatMap (shutdownStep env))
      = srvs.map (fun s => (s.Addr, context.Background)) := by
  induction srvs with
  | nil => simp [shutdownCalls]
  | cons s srvs ih =>
    simp only [List.flatMap_cons, List.map_cons]
    unfold shutdownCalls at ih ⊢
    rw [List.filterMap_append, ih]
    cases h : env.Shutdown s.Addr <;> simp [shutdownStep, h]

theorem launched_flatMap (env : Env κ) (srvs : List (http.Server η κ)) :
    launchedPlain (srvs.flatMap (shutdownStep env)) = []
      ∧ launchedTLS (srvs.flatMap (shutdownStep env)) = [] := by
  induction srvs with
  | nil => simp [launchedPlain, launchedTLS]
  | cons s srvs ih =>
    simp only [List.flatMap_cons]
    unfold launchedPlain launchedTLS at ih ⊢
    rw [List.filterMap_append, List.filterMap_append, ih.1, ih.2]
    cases h : env.Shutdown s.Addr <;> simp [shutdownStep, h]


/-- What decides whether `secureListen` gets as far as its listeners: the certificate is a
certificate resource that parses, and the address list is there. -/
theorem listenIPs_of (gconfig : Config) (env : Env κ) (ips : List String)
    (hips : (gconfig.InternalIP ≠ "" ∧ ips = [gconfig.InternalIP])
      ∨ (gconfig.InternalIP = "" ∧ env.GetLocalIPs = .ok ips)) :
    listenIPs gconfig env = .ok ips := by
  rcases hips with ⟨h, rfl⟩ | ⟨h, h2⟩
  · simp [listenIPs, h]
  · simp [listenIPs, h, h2]

theorem secureListen_runs (gconfig : Config) (env : Env κ) (handler : η)
    (cert : CertificateResource) (tlscert : κ) (quit : Bool) (ips : List String)
    (hcert : env.X509KeyPair cert.Certificate cert.PrivateKey = .ok tlscert)
    (hips : listenIPs gconfig env = .ok ips) :
    ∃ effects, secureListen gconfig env handler (some cert) quit = .ok effects
      ∧ launchedPlain effects = ips.map (plainServer gconfig handler)
      ∧ launchedTLS effects = [tlsServer gconfig handler tlscert]
      ∧ shutdownCalls effects
        = (":" ++ Itoa gconfig.HTTPSport, context.Background)
          :: ips.map (fun ip => (ip ++ ":" ++ Itoa gconfig.HTTPport, context.Background)) := by
  obtain ⟨h1, h2, h3, h4⟩ :=
    listenStep_foldl env handler (Itoa gconfig.HTTPport) ips
      (([], []) : List (http.Server η κ) × List (Effect η κ))
  obtain ⟨h5, h6⟩ := launched_flatMap env
    (ips.foldl (listenStep env handler (Itoa gconfig.HTTPport))
      (([], []) : List (http.Server η κ) × List (Effect η κ))).1
  have h7 := shutdownCalls_flatMap env
    (ips.foldl (listenStep env handler (Itoa gconfig.HTTPport))
      (([], []) : List (http.Server η κ) × List (Effect η κ))).1
  refine ⟨_, by simp only [secureListen, hcert, hips]; rfl, ?_, ?_, ?_⟩
  · unfold launchedPlain at h2 h5 ⊢
    simp only [List.filterMap_append, h5, h2]
    cases env.Shutdown (":" ++ Itoa gconfig.HTTPSport) <;> simp [plainServer]
  · unfold launchedTLS at h3 h6 ⊢
    simp only [List.filterMap_append, h6, h3]
    cases env.Shutdown (":" ++ Itoa gconfig.HTTPSport) <;> simp [tlsServer]
  · unfold shutdownCalls at h4 h7 ⊢
    simp only [List.filterMap_append]
    rw [h7, h4, h1]
    cases env.Shutdown (":" ++ Itoa gconfig.HTTPSport) <;> simp [Function.comp_def]

theorem shutdownTime_background (idleAfter : String → Option Nat) (addrs : List String) :
    shutdownTime idleAfter (addrs.map fun a => (a, context.Background))
      = if ∀ a ∈ addrs, (idleAfter a).isSome
        then some ((addrs.map fun a => (idleAfter a).getD 0).sum) else none := by
  induction addrs with
  | nil => simp [shutdownTime]
  | cons a addrs ih =>
    simp only [List.map_cons, shutdownTime, ih]
    cases h : idleAfter a with
    | none =>
      have : ¬ ∀ b ∈ a :: addrs, (idleAfter b).isSome = true := by
        intro hb
        simpa [h] using hb a (List.mem_cons_self _ _)
      rw [if_neg this]
      simp [http.ShutdownTime, context.Background]
    | some t =>
      by_cases hall : ∀ b ∈ addrs, (idleAfter b).isSome = true
      · have : ∀ b ∈ a :: addrs, (idleAfter b).isSome = true := by
          intro b hb
          rcases List.mem_cons.1 hb with rfl | hb
          · simp [h]
          · exact hall b hb
        rw [if_pos this, if_pos hall]
        simp [http.ShutdownTime, context.Background, h]
      · have : ¬ ∀ b ∈ a :: addrs, (idleAfter b).isSome = true := by
          intro hb
          exact hall fun b hb2 => hb b (List.mem_cons_of_mem _ hb2)
        rw [if_neg this, if_neg hall]
        simp [http.ShutdownTime, context.Background]

end loop

/-! ### C5: the TLS configuration -/

/-- C5 (as stated, refuted): the claim says every suite of `CipherSuites` is an ECDHE suite.
The third suite of the list `secureListen` builds, `TLS_RSA_WITH_AES_256_GCM_SHA384`, and the
fourth, `TLS_RSA_WITH_AES_256_CBC_SHA`, use the static RSA key exchange. -/
theorem C5_not_all_suites_ecdhe :
    ¬ (∀ id ∈ (tlsConfig ()).CipherSuites, tls.isECDHE id = true)
      ∧ tls.TLS_RSA_WITH_AES_256_GCM_SHA384 ∈ (tlsConfig ()).CipherSuites
      ∧ tls.isECDHE tls.TLS_RSA_WITH_AES_256_GCM_SHA384 = false
      ∧ tls.TLS_RSA_WITH_AES_256_CBC_SHA ∈ (tlsConfig ()).CipherSuites
      ∧ tls.isECDHE tls.TLS_RSA_WITH_AES_256_CBC_SHA = false := by
  decide

/-- C5 (amended): the TLS configuration built by `secureListen` requires protocol version
TLS 1.2 or later, and its cipher-suite list holds four suites, all of them AES suites in GCM
or CBC mode and none of them RC4, 3DES or NULL; the first two are ECDHE suites (forward
secret), the last two static RSA key exchange suites (not forward secret). -/
theorem C5_tls_config {κ : Type} (tlscert : κ) :
    tls.VersionTLS12 ≤ (tlsConfig tlscert).MinVersion
      ∧ (tlsConfig tlscert).CipherSuites.length = 4
      ∧ (∀ id ∈ (tlsConfig tlscert).CipherSuites, tls.isAES_GCM_or_CBC id = true)
      ∧ (∀ id ∈ (tlsConfig tlscert).CipherSuites, tls.isRC4_3DES_or_NULL id = false)
      ∧ (tlsConfig tlscert).CipherSuites.filter tls.isECDHE
          = [tls.TLS_ECDHE_RSA_WITH_AES_256_GCM_SHA384, tls.TLS_ECDHE_RSA_WITH_AES_256_CBC_SHA]
      ∧ (tlsConfig tlscert).CipherSuites.filter tls.isStaticRSA
          = [tls.TLS_RSA_WITH_AES_256_GCM_SHA384, tls.TLS_RSA_WITH_AES_256_CBC_SHA]
      ∧ (tlsConfig tlscert).Certificates = [tlscert] := by
  refine ⟨Nat.le_refl _, rfl, ?_, ?_, ?_, ?_, rfl⟩
  rotate_left 2
  · show List.filter tls.isECDHE [tls.TLS_ECDHE_RSA_WITH_AES_256_GCM_SHA384,
        tls.TLS_ECDHE_RSA_WITH_AES_256_CBC_SHA, tls.TLS_RSA_WITH_AES_256_GCM_SHA384,
        tls.TLS_RSA_WITH_AES_256_CBC_SHA] = _
    decide
  · show List.filter tls.isStaticRSA [tls.TLS_ECDHE_RSA_WITH_AES_256_GCM_SHA384,
        tls.TLS_ECDHE_RSA_WITH_AES_256_CBC_SHA, tls.TLS_RSA_WITH_AES_256_GCM_SHA384,
        tls.TLS_RSA_WITH_AES_256_CBC_SHA] = _
    decide
  · intro id hid
    have : id ∈ [tls.TLS_ECDHE_RSA_WITH_AES_256_GCM_SHA384,
        tls.TLS_ECDHE_RSA_WITH_AES_256_CBC_SHA, tls.TLS_RSA_WITH_AES_256_GCM_SHA384,
        tls.TLS_RSA_WITH_AES_256_CBC_SHA] := hid
    simp only [List.mem_cons, List.mem_singleton, List.not_mem_nil, or_false] at this
    rcases this with rfl | rfl | rfl | rfl <;> decide
  · intro id hid
    have : id ∈ [tls.TLS_ECDHE_RSA_WITH_AES_256_GCM_SHA384,
        tls.TLS_ECDHE_RSA_WITH_AES_256_CBC_SHA, tls.TLS_RSA_WITH_AES_256_GCM_SHA384,
        tls.TLS_RSA_WITH_AES_256_CBC_SHA] := hid
    simp only [List.mem_cons, List.mem_singleton, List.not_mem_nil, or_false] at this
    rcases this with rfl | rfl | rfl | rfl <;> decide

/-! ### C6: one plaintext listener per address, one TLS listener -/

/-- C6: when `secureListen` gets as far as its listeners (the certificate parses) and `ips`
is the address list (the configured internal address alone, or the `N` local addresses), it
launches exactly `N` plaintext listeners, the i-th bound to `ips[i]:HTTPport`, and exactly
one TLS listener bound to `:HTTPSport`, also for `N = 0`; and what it launches is the same
whatever `ListenAndServe` and `ListenAndServeTLS` return for any listener. -/
theorem C6_listeners {η κ : Type} (gconfig : Config) (env : Env κ) (handler : η)
    (cert : CertificateResource) (tlscert : κ) (quit : Bool) (ips : List String)
    (hcert : env.X509KeyPair cert.Certificate cert.PrivateKey = .ok tlscert)
    (hips : (gconfig.InternalIP ≠ "" ∧ ips = [gconfig.InternalIP])
      ∨ (gconfig.InternalIP = "" ∧ env.GetLocalIPs = .ok ips)) :
    ∀ (listen listenTLS : String → Option String),
      ∃ effects,
        secureListen gconfig
            { env with ListenAndServe := listen, ListenAndServeTLS := listenTLS }
            handler (some cert) quit = .ok effects
          ∧ (launchedPlain effects).length = ips.length
          ∧ (launchedPlain effects).map (fun s => s.Addr)
              = ips.map (fun ip => ip ++ ":" ++ Itoa gconfig.HTTPport)
          ∧ launchedPlain effects = ips.map (plainServer gconfig handler)
          ∧ (launchedTLS effects).length = 1
          ∧ (launchedTLS effects).map (fun s => s.Addr) = [":" ++ Itoa gconfig.HTTPSport]
          ∧ launchedTLS effects = [tlsServer gconfig handler tlscert] := by
  intro listen listenTLS
  obtain ⟨effects, h, hp, ht, _⟩ :=
    secureListen_runs gconfig { env with ListenAndServe := listen, ListenAndServeTLS := listenTLS }
      handler cert tlscert quit ips hcert (listenIPs_of gconfig _ ips hips)
  refine ⟨effects, h, ?_, ?_, hp, ?_, ?_, ht⟩
  · simp [hp]
  · simp [hp, plainServer, Function.comp_def]
  · simp [ht]
  · simp [ht, tlsServer]

/-- C6 at a concrete input: no local address at all (`N = 0`), and every bind fails; the TLS
listener is launched all the same. -/
theorem C6_listeners_witness :
    ∃ effects : List (Effect Unit Unit),
      secureListen { HTTPport := 8080, HTTPSport := 8443, InternalIP := "", StaticAssets := "" }
          { X509KeyPair := fun _ _ => .ok (), GetLocalIPs := .ok [],
            ListenAndServe := fun _ => some "listen tcp: address already in use",
            ListenAndServeTLS := fun _ => some "listen tcp: address already in use",
            Shutdown := fun _ => none }
          () (some { Certificate := [], PrivateKey := [] }) true = .ok effects
        ∧ (launchedPlain effects).length = 0
        ∧ (launchedTLS effects).map (fun s => s.Addr) = [":8443"] := by
  obtain ⟨effects, h, h1, _, _, _, h2, _⟩ :=
    C6_listeners (η := Unit) (κ := Unit)
      { HTTPport := 8080, HTTPSport := 8443, InternalIP := "", StaticAssets := "" }
      { X509KeyPair := fun _ _ => .ok (), GetLocalIPs := .ok [],
        ListenAndServe := fun _ => none, ListenAndServeTLS := fun _ => none,
        Shutdown := fun _ => none }
      () { Certificate := [], PrivateKey := [] } () true [] rfl (Or.inr ⟨rfl, rfl⟩)
      (fun _ => some "listen tcp: address already in use")
      (fun _ => some "listen tcp: address already in use")
  exact ⟨effects, h, h1, by rw [h2]; decide⟩

/-! ### C9: shutting the listeners down -/

/-- C9 (as stated, refuted): a run of `secureListen` with one internal address. Every
`Shutdown` call gets a context without a deadline, and when a request in flight on the TLS
listener never finishes, the shutdown never returns. -/
theorem C9_shutdown_unbounded :
    ∃ effects : List (Effect Unit Unit),
      secureListen
          { HTTPport := 8080, HTTPSport := 8443, InternalIP := "10.0.0.1", StaticAssets := "" }
          { X509KeyPair := fun _ _ => .ok (), GetLocalIPs := .ok [],
            ListenAndServe := fun _ => none, ListenAndServeTLS := fun _ => none,
            Shutdown := fun _ => none }
          () (some { Certificate := [], PrivateKey := [] }) true = .ok effects
        ∧ shutdownCalls effects
            = [(":8443", context.Background), ("10.0.0.1:8080", context.Background)]
        ∧ (∀ call ∈ shutdownCalls effects, call.2.deadline = none)
        ∧ shutdownTime (fun addr => if addr = ":8443" then none else some 0)
            (shutdownCalls effects) = none := by
  obtain ⟨effects, h, _, _, hs⟩ :=
    secureListen_runs (η := Unit) (κ := Unit)
      { HTTPport := 8080, HTTPSport := 8443, InternalIP := "10.0.0.1", StaticAssets := "" }
      { X509KeyPair := fun _ _ => .ok (), GetLocalIPs := .ok [],
        ListenAndServe := fun _ => none, ListenAndServeTLS := fun _ => none,
        Shutdown := fun _ => none }
      () { Certificate := [], PrivateKey := [] } () true ["10.0.0.1"] rfl rfl
  have hs2 : shutdownCalls effects
      = [(":8443", context.Background), ("10.0.0.1:8080", context.Background)] := by
    rw [hs]; decide
  refine ⟨effects, h, hs2, ?_, ?_⟩
  · rw [hs2]; decide
  · rw [hs2]; decide

/-- C9 (amended): when the quit signal is received, `secureListen` calls `Shutdown` on the
TLS listener and then on every plaintext listener, in launch order, each with the same
context, `context.Background()`, which has no deadline; the shutdown returns exactly when the
connections of every listener become idle, after the sum of the times that takes, and does
not return when a request in flight on one of them never finishes. `WebsrvInit` shuts its
server down with `context.Background()` too. -/
theorem C9_shutdown {η κ : Type} (gconfig : Config) (env : Env κ) (handler : η)
    (cert : CertificateResource) (tlscert : κ) (quit : Bool) (ips : List String)
    (idleAfter : String → Option Nat)
    (hcert : env.X509KeyPair cert.Certificate cert.PrivateKey = .ok tlscert)
    (hips : (gconfig.InternalIP ≠ "" ∧ ips = [gconfig.InternalIP])
      ∨ (gconfig.InternalIP = "" ∧ env.GetLocalIPs = .ok ips)) :
    ∃ effects,
      secureListen gconfig env handler (some cert) quit = .ok effects
        ∧ shutdownCalls effects
            = ((":" ++ Itoa gconfig.HTTPSport)
                :: ips.map (fun ip => ip ++ ":" ++ Itoa gconfig.HTTPport)).map
                (fun addr => (addr, context.Background))
        ∧ context.Background.deadline = none
        ∧ (∀ call ∈ shutdownCalls effects, call.2 = context.Background)
        ∧ ((∀ call ∈ shutdownCalls effects, (idleAfter call.1).isSome) →
            shutdownTime idleAfter (shutdownCalls effects)
              = some (((shutdownCalls effects).map fun call => (idleAfter call.1).getD 0).sum))
        ∧ ((∃ call ∈ shutdownCalls effects, idleAfter call.1 = none) →
            shutdownTime idleAfter (shutdownCalls effects) = none)
        ∧ (∀ (statik : Statik) (tables : Tables) (listenErr shutdownErr : Option String)
            (initEffects : List (Effect Negroni Unit)) (interrupted : Bool),
            WebsrvInit gconfig statik tables listenErr shutdownErr quit
                = .ok (initEffects, interrupted) →
              shutdownCalls initEffects
                = [("0.0.0.0:" ++ Itoa gconfig.HTTPport, context.Background)]) := by
  obtain ⟨effects, h, _, _, hs⟩ :=
    secureListen_runs gconfig env handler cert tlscert quit ips hcert
      (listenIPs_of gconfig env ips hips)
  have hs2 : shutdownCalls effects
      = ((":" ++ Itoa gconfig.HTTPSport)
          :: ips.map (fun ip => ip ++ ":" ++ Itoa gconfig.HTTPport)).map
          fun addr => (addr, context.Background) := by
    rw [hs]; simp [Function.comp_def]
  refine ⟨effects, h, hs2, rfl, ?_, ?_, ?_, ?_⟩
  rotate_left 3
  · intro statik tables listenErr shutdownErr initEffects interrupted hinit
    unfold WebsrvInit at hinit
    cases hh : WebsrvInitHandler gconfig statik tables with
    | error e => simp [hh] at hinit
    | ok n =>
      simp only [hh, Except.ok.injEq, Prod.mk.injEq] at hinit
      rw [← hinit.1]
      cases shutdownErr <;> simp [shutdownCalls]
  · intro call hcall
    rw [hs2] at hcall
    obtain ⟨a, _, rfl⟩ := List.mem_map.1 hcall
    rfl
  · intro hall
    rw [hs2] at hall ⊢
    rw [shutdownTime_background, if_pos]
    · simp [Function.comp_def]
    · intro a ha
      exact hall (a, context.Background) (List.mem_map.2 ⟨a, ha, rfl⟩)
  · rintro ⟨call, hcall, hnone⟩
    rw [hs2] at hcall ⊢
    obtain ⟨a, ha, rfl⟩ := List.mem_map.1 hcall
    rw [shutdownTime_background, if_neg]
    intro hall
    have := hall a ha
    simp [hnone] at this

/-- C9 (amended) at a concrete input: two local addresses, every listener idle after some
time; the shutdown takes 3 + 5 + 7. -/
theorem C9_shutdown_witness :
    ∃ effects : List (Effect Unit Unit),
      secureListen { HTTPport := 8080, HTTPSport := 8443, InternalIP := "", StaticAssets := "" }
          { X509KeyPair := fun _ _ => .ok (), GetLocalIPs := .ok ["10.0.0.1", "10.0.0.2"],
            ListenAndServe := fun _ => none, ListenAndServeTLS := fun _ => none,
            Shutdown := fun _ => none }
          () (some { Certificate := [], PrivateKey := [] }) true = .ok effects
        ∧ shutdownCalls effects
            = [(":8443", context.Background), ("10.0.0.1:8080", context.Background),
               ("10.0.0.2:8080", context.Background)]
        ∧ shutdownTime
            (fun addr => if addr = ":8443" then some 3 else if addr = "10.0.0.1:8080" then some 5
              else some 7)
            (shutdownCalls effects) = some 15 := by
  obtain ⟨effects, h, hs, _, _, ht, _, _⟩ :=
    C9_shutdown (η := Unit) (κ := Unit)
      { HTTPport := 8080, HTTPSport := 8443, InternalIP := "", StaticAssets := "" }
      { X509KeyPair := fun _ _ => .ok (), GetLocalIPs := .ok ["10.0.0.1", "10.0.0.2"],
        ListenAndServe := fun _ => none, ListenAndServeTLS := fun _ => none,
        Shutdown := fun _ => none }
      () { Certificate := [], PrivateKey := [] } () true ["10.0.0.1", "10.0.0.2"]
      (fun addr => if addr = ":8443" then some 3 else if addr = "10.0.0.1:8080" then some 5
        else some 7)
      rfl (Or.inr ⟨rfl, rfl⟩)
  have hs2 : shutdownCalls effects
      = [(":8443", context.Background), ("10.0.0.1:8080", context.Background),
         ("10.0.0.2:8080", context.Background)] := by
    rw [hs]; decide
  refine ⟨effects, h, hs2, ?_⟩
  rw [hs2]; decide

end api


namespace mux

theorem stripPrefix_eq_some (pre cs rest : List Char) :
    stripPrefix pre cs = some rest ↔ cs = pre ++ rest := by
  induction pre generalizing cs with
  | nil => simp [stripPrefix, eq_comm]
  | cons p ps ih =>
    cases cs with
    | nil => simp [stripPrefix]
    | cons c cs =>
      by_cases h : p = c
      · subst h; simp [stripPrefix, ih]
      · simp [stripPrefix, h]
        intro h'; exact absurd h'.symm h

/-- A strict-slash path expression without variables matches the template and the template
followed by a slash, and nothing else. -/
theorem match_lit_strict (tpl : String) (L : List Char) (path : String)
    (h : RouteRegexp.Match
      { template := tpl, regexpType := .path, strictSlash := true, parts := [.lit L] } path
        = true) :
    path = ⟨L⟩ ∨ path = ⟨L ++ ['/']⟩ := by
  simp only [RouteRegexp.Match, matchParts] at h
  cases hs : stripPrefix L path.data with
  | none => simp [hs] at h
  | some rest =>
    rw [hs] at h
    have hp := (stripPrefix_eq_some L path.data rest).1 hs
    simp only [matchEnd, Bool.true_and, Bool.or_eq_true, decide_eq_true_eq] at h
    rcases h with h | h
    · left; subst h; apply String.ext; simpa using hp
    · right; subst h; apply String.ext; simpa using hp

/-- Whether a route matches a request in full. -/
theorem isYes_iff {η : Type} (rt : Route η) (method path : String) :
    (rt.Match method path).isYes
      = (rt.err.isNone
          && (match rt.path with
              | none => true
              | some rr => rr.Match path)
          && rt.methods.all fun ms => ms.contains method) := by
  obtain ⟨ss, pt, methods, rpath, name, named, handler, err⟩ := rt
  cases err with
  | some e => simp [Route.Match, RouteMatch.isYes]
  | none =>
    simp only [Route.Match, Option.isSome_none, Bool.false_eq_true, if_false,
      Option.isNone_none, Bool.true_and]
    generalize (methods.all fun ms => ms.contains method) = methodOk
    cases methodOk <;>
    cases rpath with
    | none => simp [RouteMatch.isYes]
    | some rr => cases hrr : rr.Match path <;> simp [RouteMatch.isYes, hrr]

end mux

namespace api
open mux

theorem applyInternalAPIroutes_routes (s : Routers) :
    (applyInternalAPIroutes s).internalRouter.routes =
      [ internalRoute "getOwnResources" "GET" "/api/v1/i/internal/resource"
          [.lit "/api/v1/i/internal/resource".data] "getOwnResources",
        internalRoute "createResource" "POST" "/api/v1/i/internal/resource"
          [.lit "/api/v1/i/internal/resource".data] "createResource",
        internalRoute "deleteResource" "DELETE" "/api/v1/i/internal/resource/\x7bresourceID\x7d"
          [.lit "/api/v1/i/internal/resource/".data, .var "resourceID".data, .lit []]
          "deleteResource",
        internalRoute "registerResourceProvider" "POST" "/api/v1/i/internal/provider"
          [.lit "/api/v1/i/internal/provider".data] "registerResourceProvider",
        internalRoute "deregisterResourceProvider" "DELETE" "/api/v1/i/internal/provider"
          [.lit "/api/v1/i/internal/provider".data] "deregisterResourceProvider",
        internalRoute "getProviderResources" "GET" "/api/v1/i/internal/resource/provider"
          [.lit "/api/v1/i/internal/resource/provider".data] "getProviderResources",
        internalRoute "setResourceStatus" "POST" "/api/v1/i/internal/resource/\x7bresourceID\x7d"
          [.lit "/api/v1/i/internal/resource/".data, .var "resourceID".data, .lit []]
          "setResourceStatus",
        internalRoute "getResource" "GET" "/api/v1/i/internal/resource/\x7bresourceID\x7d"
          [.lit "/api/v1/i/internal/resource/".data, .var "resourceID".data, .lit []]
          "getResource" ] := by
  rfl


theorem internal_matching_le_one (method : String) (a b c d : Bool)
    (hab : a = true → b = false) (hac : a = true → c = false) (had : a = true → d = false)
    (hbd : b = true → d = false) (hbc : b = true → c = false)
    (hc : c = true → method ≠ "GET") :
    (List.filter (fun x => x.2)
      [ ("getOwnResources", decide (method = "GET") && a),
        ("createResource", decide (method = "POST") && a),
        ("deleteResource", decide (method = "DELETE") && d),
        ("registerResourceProvider", decide (method = "POST") && b),
        ("deregisterResourceProvider", decide (method = "DELETE") && b),
        ("getProviderResources", decide (method = "GET") && c),
        ("setResourceStatus", decide (method = "POST") && d),
        ("getResource", decide (method = "GET") && d) ]).length ≤ 1 := by
  by_cases hG : method = "GET"
  · subst hG
    cases a <;> cases b <;> cases c <;> cases d <;> simp_all
  · by_cases hP : method = "POST"
    · subst hP
      cases a <;> cases b <;> cases c <;> cases d <;> simp_all
    · by_cases hD : method = "DELETE"
      · subst hD
        cases a <;> cases b <;> cases c <;> cases d <;> simp_all
      · simp [hG, hP, hD]

theorem isYes_internalRoute (name m tpl : String) (parts : List Part) (h : String)
    (method path : String) :
    ((internalRoute name m tpl parts h).Match method path).isYes
      = (decide (method = m)
          && RouteRegexp.Match
              { template := tpl, regexpType := .path, strictSlash := true, parts := parts }
              path) := by
  rw [isYes_iff]
  simp [internalRoute, Bool.and_comm]

theorem length_filter_eq {α β : Type} (f : α → Bool) (g : α → β) (p : β → Bool)
    (h : ∀ x, p (g x) = f x) (l : List α) :
    (l.filter f).length = ((l.map g).filter p).length := by
  induction l with
  | nil => rfl
  | cons x xs ih =>
    simp only [List.map_cons, List.filter_cons, h x]
    split <;> simp [ih]

theorem internal_matching (s : Routers) (method path : String)
    (h : ¬ (method = "GET" ∧ (path = "/api/v1/i/internal/resource/provider"
      ∨ path = "/api/v1/i/internal/resource/provider/"))) :
    ((applyInternalAPIroutes s).internalRouter.matching method path).length ≤ 1 := by
  unfold Router.matching
  rw [length_filter_eq (fun rt : Route String => (rt.Match method path).isYes)
    (fun rt => (rt.name, (rt.Match method path).isYes)) (fun x => x.2) (fun _ => rfl),
    applyInternalAPIroutes_routes]
  simp only [List.map_cons, List.map_nil, isYes_internalRoute]
  have ha := match_lit_strict "/api/v1/i/internal/resource"
    "/api/v1/i/internal/resource".data path
  have hb := match_lit_strict "/api/v1/i/internal/provider"
    "/api/v1/i/internal/provider".data path
  have hc := match_lit_strict "/api/v1/i/internal/resource/provider"
    "/api/v1/i/internal/resource/provider".data path
  refine internal_matching_le_one method _ _ _ _ ?_ ?_ ?_ ?_ ?_ ?_
  · intro h1; rcases ha h1 with rfl | rfl <;> decide
  · intro h1; rcases ha h1 with rfl | rfl <;> decide
  · intro h1; rcases ha h1 with rfl | rfl <;> decide
  · intro h1; rcases hb h1 with rfl | rfl <;> decide
  · intro h1; rcases hb h1 with rfl | rfl <;> decide
  · intro h1 hG
    exact h ⟨hG, hc h1⟩

end api

namespace mux

/-- First-match dispatch does not depend on the order of the routes when at most one of them
matches the request. -/
theorem matchRoutes_perm {η : Type} (method path : String) {l₁ l₂ : List (Route η)}
    (hp : l₁.Perm l₂) :
    ∀ mismatch : Bool,
      (l₁.filter fun rt => (rt.Match method path).isYes).length ≤ 1 →
      matchRoutes method path l₁ mismatch = matchRoutes method path l₂ mismatch := by
  induction hp with
  | nil => intro _ _; rfl
  | cons x _ ih =>
    intro mm hlen
    simp only [matchRoutes]
    cases hx : x.Match method path with
    | no =>
      simp only [List.filter_cons, hx, RouteMatch.isYes] at hlen
      exact ih mm (by simpa using hlen)
    | methodMismatch =>
      simp only [List.filter_cons, hx, RouteMatch.isYes] at hlen
      exact ih true (by simpa using hlen)
    | yes r => cases r <;> rfl
  | swap x y l =>
    intro mm hlen
    simp only [matchRoutes]
    cases hx : x.Match method path <;> cases hy : y.Match method path <;>
      simp_all [List.filter_cons, RouteMatch.isYes]
  | trans h₁ _ ih₁ ih₂ =>
    intro mm hlen
    rw [ih₁ mm hlen]
    exact ih₂ mm (by rw [← (h₁.filter _).length_eq]; exact hlen)

end mux

namespace api
open mux

theorem Route_name_after {η : Type} (r0 : Route η) (h0 : r0.name = "") (n : String) (h : η) :
    ((r0.Name n).Handler h).err = none →
      ((r0.Name n).Handler h).name = n ∧ ((r0.Name n).Handler h).handler = some h := by
  unfold Route.Name Route.Handler
  simp only [h0, ne_eq, not_true_eq_false, if_false]
  cases he : r0.err <;> simp [he]

theorem Route_name_or {η : Type} (r0 : Route η) (h0 : r0.name = "") (n : String) (h : η) :
    ((r0.Name n).Handler h).name = n ∨ ((r0.Name n).Handler h).name = "" := by
  unfold Route.Name Route.Handler
  simp only [h0, ne_eq, not_true_eq_false, if_false]
  cases he : r0.err <;> simp [he, h0]

theorem Route_name_pres {η : Type} (r0 : Route η) (tpl : String) (typ : RegexpType) :
    (r0.addRegexpMatcher tpl typ).name = r0.name := by
  unfold Route.addRegexpMatcher
  split
  · rfl
  · split
    · rfl
    · dsimp only
      split <;> rfl

theorem Route_methods_name {η : Type} (r0 : Route η) (m : List String) :
    (r0.Methods m).name = r0.name := by
  unfold Route.Methods
  split <;> rfl

theorem applyAPIroute_routes (st : mux.Router String × MethodCaps) (route : route) :
    ∃ rt : mux.Route String,
      (applyAPIroute st route).1 = st.1.add rt
        ∧ (rt.err = none → rt.name = route.Name ∧ rt.handler = some route.HandlerFunc)
        ∧ (rt.name = route.Name ∨ rt.name = "") := by
  unfold applyAPIroute
  by_cases hm : route.Method = ""
  · have h0 : (st.1.NewRoute.Path route.Pattern).name = "" := by
      simp [Route.Path, Route_name_pres, Router.NewRoute]
    refine ⟨((st.1.NewRoute.Path route.Pattern).Name route.Name).Handler route.HandlerFunc,
      ?_, Route_name_after _ h0 route.Name route.HandlerFunc,
      Route_name_or _ h0 route.Name route.HandlerFunc⟩
    cases route.Capability <;> simp [hm]
  · have h0 : ((st.1.NewRoute.Methods [route.Method]).Path route.Pattern).name = "" := by
      simp [Route.Path, Route_name_pres, Route_methods_name, Router.NewRoute]
    refine ⟨(((st.1.NewRoute.Methods [route.Method]).Path route.Pattern).Name
      route.Name).Handler route.HandlerFunc,
      ?_, Route_name_after _ h0 route.Name route.HandlerFunc,
      Route_name_or _ h0 route.Name route.HandlerFunc⟩
    cases route.Capability <;> simp [hm]

theorem applyAPIroutes_routes (routes : List route) :
    ∀ (r : mux.Router String) (caps : MethodCaps),
      ∃ added : List (mux.Route String),
        (applyAPIroutes r caps routes).1.routes = r.routes ++ added
          ∧ List.Forall₂
              (fun rt route =>
                (rt.err = none → rt.name = route.Name ∧ rt.handler = some route.HandlerFunc)
                  ∧ (rt.name = route.Name ∨ rt.name = ""))
              added routes := by
  induction routes with
  | nil => intro r caps; exact ⟨[], by simp [applyAPIroutes], List.Forall₂.nil⟩
  | cons route routes ih =>
    intro r caps
    obtain ⟨rt, hrt, hprop⟩ := applyAPIroute_routes (r, caps) route
    obtain ⟨added, hadd, hall⟩ := ih (applyAPIroute (r, caps) route).1
      (applyAPIroute (r, caps) route).2
    refine ⟨rt :: added, ?_, List.Forall₂.cons hprop hall⟩
    simp only [applyAPIroutes, List.foldl_cons] at hadd ⊢
    rw [hadd, hrt]
    simp [Router.add]

theorem forall₂_mem_left {α β : Type} {P : α → β → Prop} {l₁ : List α} {l₂ : List β}
    (h : List.Forall₂ P l₁ l₂) {a : α} (ha : a ∈ l₁) : ∃ b ∈ l₂, P a b := by
  induction h with
  | nil => simp at ha
  | cons hab _ ih =>
    rcases List.mem_cons.1 ha with rfl | ha
    · exact ⟨_, List.mem_cons_self _ _, hab⟩
    · obtain ⟨b, hb, hp⟩ := ih ha
      exact ⟨b, List.mem_cons_of_mem _ hb, hp⟩

/-- A route of a router after `applyAPIroutes` was there before, or has no name, or has the
name of an entry of the list. -/
theorem applyAPIroutes_names (r : mux.Router String) (caps : MethodCaps) (routes : List route)
    (rt : mux.Route String) (hrt : rt ∈ (applyAPIroutes r caps routes).1.routes) :
    rt ∈ r.routes ∨ rt.name = "" ∨ ∃ route ∈ routes, route.Name = rt.name := by
  obtain ⟨added, hadd, hall⟩ := applyAPIroutes_routes routes r caps
  rw [hadd] at hrt
  rcases List.mem_append.1 hrt with h | h
  · exact Or.inl h
  · obtain ⟨route, hroute, _, hname⟩ := forall₂_mem_left hall h
    rcases hname with hn | hn
    · exact Or.inr (Or.inr ⟨route, hroute, hn.symm⟩)
    · exact Or.inr (Or.inl hn)

end api

namespace regexp

/-- The expressions of path variables at work: what matches and what does not compile. -/
theorem MatchString_examples :
    MatchString "[0-9]+" "123" = true
    ∧ MatchString "[0-9]+" "12a" = false
    ∧ MatchString "[0-9]+" "" = false
    ∧ MatchString "[^/]+" "a/b" = false
    ∧ MatchString ".*" "a/b" = true
    ∧ MatchString "." "\n" = false
    ∧ MatchString "(?s)." "\n" = true
    ∧ MatchString "(?:json|xml)" "xml" = true
    ∧ MatchString "json|xml" "jsonxml" = false
    ∧ MatchString "\\d\x7b2,3\x7d" "123" = true
    ∧ MatchString "\\d\x7b2,3\x7d" "1234" = false
    ∧ MatchString "[a-z0-9-]+" "my-page-2" = true
    ∧ MatchString "(?i)abc" "aBC" = true
    ∧ MatchString "[[:alpha:]]+\\.txt" "notes.txt" = true
    ∧ MatchString "x\x7b" "x\x7b" = true
    ∧ MatchString "\\bfoo\\b" "foo" = true
    ∧ MatchString "a\\bb" "ab" = false
    ∧ MatchString "a$\\nb" "a\nb" = false
    ∧ MatchString "(?m)a$\\nb" "a\nb" = true
    ∧ MatchString "\\Qa.b\\E+" "a.bbb" = true
    ∧ MatchString "\\Qa.b\\E+" "axb" = false
    ∧ (Compile "(?:a|b)c".data).map (fun c => c.2) = some false
    ∧ (Compile "(a|b)c".data).map (fun c => c.2) = some true
    ∧ (Compile "(?P<id>a)".data).map (fun c => c.2) = some true
    ∧ Compile "a**".data = none
    ∧ Compile "a\x7b1001\x7d".data = none
    ∧ Compile "(a".data = none
    ∧ Compile "a)".data = none
    ∧ Compile "[a".data = none
    ∧ Compile "[z-a]".data = none
    ∧ Compile "*a".data = none := by
  refine ⟨?_, ?_, ?_, ?_, ?_, ?_, ?_, ?_, ?_, ?_, ?_, ?_, ?_, ?_, ?_, ?_, ?_, ?_, ?_, ?_, ?_,
    ?_, ?_, ?_, ?_, ?_, ?_, ?_, ?_, ?_, ?_⟩ <;> decide

end regexp

namespace mux

theorem lookup_cons_eq {α : Type} (k : String) (v : α) (m : List (String × α))
    (name : String) :
    List.lookup name ((k, v) :: m) = if name = k then some v else m.lookup name := by
  by_cases h : name = k
  · subst h
    simp [List.lookup]
  · have hb : (name == k) = false := by simpa using h
    simp [List.lookup, hb, h]

theorem lookup_mapSet {α : Type} (m : List (String × α)) (key : String) (value : α)
    (name : String) :
    (mapSet m key value).lookup name = if name = key then some value else m.lookup name := by
  unfold mapSet
  induction m with
  | nil =>
    rw [List.filter_nil, List.nil_append, lookup_cons_eq]
  | cons e m ih =>
    obtain ⟨k, v⟩ := e
    rw [lookup_cons_eq, List.filter_cons]
    by_cases hk : k = key
    · subst hk
      have hb : ((k, v).1 != k) = false := by simp
      rw [hb]
      simp only [Bool.false_eq_true, if_false]
      rw [ih]
      by_cases h : name = k
      · simp [h]
      · simp [h]
    · have hb : ((k, v).1 != key) = true := by simpa using hk
      rw [hb]
      simp only [if_true]
      rw [List.cons_append, lookup_cons_eq, ih]
      by_cases h : name = k
      · have h2 : name ≠ key := fun h3 => hk (h.symm.trans h3)
        simp [h, h2, hk]
      · simp [h]

end mux

namespace api
open mux

theorem addRegexpMatcher_methods {η : Type} (r0 : Route η) (ms : List (List String))
    (tpl : String) (typ : RegexpType) :
    (Route.addRegexpMatcher { r0 with methods := ms } tpl typ).err
        = (r0.addRegexpMatcher tpl typ).err
      ∧ (Route.addRegexpMatcher { r0 with methods := ms } tpl typ).panicked
        = (r0.addRegexpMatcher tpl typ).panicked := by
  unfold Route.addRegexpMatcher
  dsimp only
  split
  · exact ⟨rfl, rfl⟩
  · split
    · exact ⟨rfl, rfl⟩
    · split <;> exact ⟨rfl, rfl⟩

/-- The route an entry is made into: `Name` and `Handler` on a route without a name. -/
theorem Route_named {η : Type} (r0 : Route η) (h0 : r0.name = "") (hh : r0.handler = none)
    (hn : r0.named = false) (n : String) (h : η) :
    ((r0.Name n).Handler h).err = r0.err
      ∧ ((r0.Name n).Handler h).panicked = r0.panicked
      ∧ (((r0.Name n).Handler h).err = none →
          ((r0.Name n).Handler h).name = n ∧ ((r0.Name n).Handler h).handler = some h
            ∧ ((r0.Name n).Handler h).named = true)
      ∧ (((r0.Name n).Handler h).err ≠ none →
          ((r0.Name n).Handler h).name = "" ∧ ((r0.Name n).Handler h).handler = none
            ∧ ((r0.Name n).Handler h).named = false) := by
  unfold Route.Name Route.Handler
  simp only [h0, ne_eq, not_true_eq_false, if_false]
  cases he : r0.err <;> simp [he, h0, hh, hn]

theorem addRegexpMatcher_fields {η : Type} (r0 : Route η) (tpl : String) (typ : RegexpType) :
    (r0.addRegexpMatcher tpl typ).name = r0.name
      ∧ (r0.addRegexpMatcher tpl typ).handler = r0.handler
      ∧ (r0.addRegexpMatcher tpl typ).named = r0.named := by
  unfold Route.addRegexpMatcher
  split
  · exact ⟨rfl, rfl, rfl⟩
  · split
    · exact ⟨rfl, rfl, rfl⟩
    · dsimp only
      split <;> exact ⟨rfl, rfl, rfl⟩

/-- What `applyAPIroute` makes of an entry: the route `r.NewRoute()` with `Methods` (when the
entry has a method), `Path`, `Name` and `Handler` applied. Its only error is the one of its
path template. -/
theorem applyAPIroute_added (st : mux.Router String × MethodCaps) (route : route) :
    ∃ rt : mux.Route String,
      (applyAPIroute st route).1 = st.1.add rt
        ∧ rt.err = (st.1.NewRoute.Path route.Pattern).err
        ∧ rt.panicked = (st.1.NewRoute.Path route.Pattern).panicked
        ∧ (rt.err = none →
            rt.name = route.Name ∧ rt.handler = some route.HandlerFunc ∧ rt.named = true)
        ∧ (rt.err ≠ none → rt.name = "" ∧ rt.handler = none ∧ rt.named = false) := by
  unfold applyAPIroute
  by_cases hm : route.Method = ""
  · obtain ⟨f1, f2, f3⟩ := addRegexpMatcher_fields st.1.NewRoute route.Pattern .path
    obtain ⟨g1, gp, g2, g3⟩ := Route_named (st.1.NewRoute.Path route.Pattern)
      (f1.trans rfl) (f2.trans rfl) (f3.trans rfl) route.Name route.HandlerFunc
    refine ⟨((st.1.NewRoute.Path route.Pattern).Name route.Name).Handler route.HandlerFunc,
      ?_, g1, gp, g2, g3⟩
    cases route.Capability <;> simp [hm]
  · obtain ⟨f1, f2, f3⟩ := addRegexpMatcher_fields (st.1.NewRoute.Methods [route.Method])
      route.Pattern .path
    obtain ⟨g1, gp, g2, g3⟩ := Route_named
      ((st.1.NewRoute.Methods [route.Method]).Path route.Pattern)
      (f1.trans rfl) (f2.trans rfl) (f3.trans rfl) route.Name route.HandlerFunc
    refine ⟨(((st.1.NewRoute.Methods [route.Method]).Path route.Pattern).Name
      route.Name).Handler route.HandlerFunc, ?_, g1.trans ?_, gp.trans ?_, g2, g3⟩
    · cases route.Capability <;> simp [hm]
    · exact (addRegexpMatcher_methods st.1.NewRoute _ route.Pattern .path).1
    · exact (addRegexpMatcher_methods st.1.NewRoute _ route.Pattern .path).2

theorem getLast?_filter_cons {α : Type} (p : α → Bool) (a : α) (l : List α) :
    ((a :: l).filter p).getLast?
      = ((l.filter p).getLast?).or (if p a then some a else none) := by
  rw [List.filter_cons]
  by_cases h : p a = true
  · rw [if_pos h, if_pos h, List.getLast?_cons]
    cases (l.filter p).getLast? <;> rfl
  · rw [if_neg h, if_neg h]
    cases (l.filter p).getLast? <;> rfl

/-- The routes `applyAPIroutes` adds and the index of named routes after it. -/
theorem applyAPIroutes_added (routes : List route) :
    ∀ (r : mux.Router String) (caps : MethodCaps),
      ∃ added : List (mux.Route String),
        (applyAPIroutes r caps routes).1.routes = r.routes ++ added
          ∧ List.Forall₂
              (fun rt route =>
                rt.err = (r.NewRoute.Path route.Pattern).err
                  ∧ rt.panicked = (r.NewRoute.Path route.Pattern).panicked
                  ∧ (rt.err = none →
                      rt.name = route.Name ∧ rt.handler = some route.HandlerFunc
                        ∧ rt.named = true)
                  ∧ (rt.err ≠ none → rt.name = "" ∧ rt.handler = none ∧ rt.named = false))
              added routes
          ∧ (applyAPIroutes r caps routes).1.panicked
              = (r.panicked || added.any fun rt => rt.panicked)
          ∧ ∀ name : String,
              (applyAPIroutes r caps routes).1.namedRoutes.lookup name
                = ((added.filter fun rt => rt.named && rt.name == name).getLast?).or
                    (r.namedRoutes.lookup name) := by
  induction routes with
  | nil =>
    intro r caps
    exact ⟨[], by simp [applyAPIroutes], List.Forall₂.nil, by simp [applyAPIroutes],
      fun _ => rfl⟩
  | cons route routes ih =>
    intro r caps
    obtain ⟨rt, hrt, hprop⟩ := applyAPIroute_added (r, caps) route
    obtain ⟨added, hadd, hall, hpan, hidx⟩ := ih (applyAPIroute (r, caps) route).1
      (applyAPIroute (r, caps) route).2
    have hnew : (applyAPIroute (r, caps) route).1.NewRoute = r.NewRoute := by rw [hrt]; rfl
    rw [hnew] at hall
    refine ⟨rt :: added, ?_, List.Forall₂.cons hprop hall, ?_, ?_⟩
    · simp only [applyAPIroutes, List.foldl_cons] at hadd ⊢
      rw [hadd, hrt]
      simp [Router.add]
    · simp only [applyAPIroutes, List.foldl_cons] at hpan ⊢
      rw [hpan, hrt]
      simp [Router.add, Bool.or_assoc]
    · intro name
      have h := hidx name
      simp only [applyAPIroutes, List.foldl_cons] at h ⊢
      rw [h, hrt, getLast?_filter_cons]
      have hlk : (r.add rt).namedRoutes.lookup name
          = (if (rt.named && rt.name == name) = true then some rt else none).or
              (r.namedRoutes.lookup name) := by
        unfold Router.add
        dsimp only
        by_cases hn : rt.named = true
        · rw [if_pos hn, lookup_mapSet]
          by_cases he : name = rt.name
          · subst he; simp [hn]
          · have he2 : ¬ rt.name = name := fun h3 => he h3.symm
            simp [hn, he, he2]
        · rw [if_neg hn]
          simp [hn]
      rw [hlk]
      cases (added.filter fun rt => rt.named && rt.name == name).getLast? <;> rfl

end api

namespace api
open mux

/-! ### C7: route names at registration -/

/-- C7 (as stated, refuted): the internal router holds a route named `getResource`;
registering a list with another route of that name does not fail, it adds the route. After
that two registered routes, both without an error, share the name, and the name index holds
the later one. -/
theorem C7_duplicate_name_registered :
    routeNames
        (applyAPIroutes (applyInternalAPIroutes { mainRtr := {} }).internalRouter []
          [{ Name := "getResource", Method := "", Pattern := "/ws", HandlerFunc := "ws" }]).1
      = ["getOwnResources", "createResource", "deleteResource", "registerResourceProvider",
         "deregisterResourceProvider", "getProviderResources", "setResourceStatus",
         "getResource", "getResource"]
    ∧ ¬ (routeNames
        (applyAPIroutes (applyInternalAPIroutes { mainRtr := {} }).internalRouter []
          [{ Name := "getResource", Method := "", Pattern := "/ws", HandlerFunc := "ws" }]).1).Nodup
    ∧ (applyAPIroutes (applyInternalAPIroutes { mainRtr := {} }).internalRouter []
          [{ Name := "getResource", Method := "", Pattern := "/ws", HandlerFunc := "ws" }]).1.routes.map
          (fun rt => (rt.err, rt.handler))
      = [(none, some "getOwnResources"), (none, some "createResource"),
         (none, some "deleteResource"), (none, some "registerResourceProvider"),
         (none, some "deregisterResourceProvider"), (none, some "getProviderResources"),
         (none, some "setResourceStatus"), (none, some "getResource"), (none, some "ws")]
    ∧ ((applyAPIroutes (applyInternalAPIroutes { mainRtr := {} }).internalRouter []
          [{ Name := "getResource", Method := "", Pattern := "/ws", HandlerFunc := "ws"
            }]).1.namedRoutes.lookup "getResource").map (fun rt => rt.handler)
      = some (some "ws") := by
  refine ⟨by rfl, ?_, by rfl, by rfl⟩
  have h : routeNames
        (applyAPIroutes (applyInternalAPIroutes { mainRtr := {} }).internalRouter []
          [{ Name := "getResource", Method := "", Pattern := "/ws", HandlerFunc := "ws" }]).1
      = ["getOwnResources", "createResource", "deleteResource", "registerResourceProvider",
         "deregisterResourceProvider", "getProviderResources", "setResourceStatus",
         "getResource", "getResource"] := by rfl
  rw [h]
  decide

/-- C7 (amended): registration does not compare route names and never fails on account of
a name: for every router and every route list, `applyAPIroutes` (the loop
`applyExternalAPIroutes` runs too) appends one route per entry of the list, in order, to the
routes already registered. What can fail is `Path` compiling the template of an entry, with
an error the route carries or with a panic. A route without an error carries the name and
the handler of its entry and is entered in the index of named routes, whether or not a route
of that name is already registered; a route with an error has no name. After registration
the index gives, for every name, the route added last under that name, and what it gave
before when no route was added under it. A template with a variable that has a pattern of
its own is registered like any other: the entry `getItem` with the template
`/item/{id:[0-9]+}` gets its name and its handler; with a capturing group,
`/item/{id:([0-9]+)}`, registration panics. `applyExternalAPIroutes` registers one route per
entry of its table in the same way. The routes `applyInternalAPIroutes` registers from
`internalRoutes` carry the names of the table, none has an error, and no two of them share a
name. -/
theorem C7_registration (r : mux.Router String) (caps : MethodCaps) (routes : List route) :
    (∃ added : List (mux.Route String),
      (applyAPIroutes r caps routes).1.routes = r.routes ++ added
        ∧ added.length = routes.length
        ∧ List.Forall₂
            (fun rt route =>
              (rt.err = none → rt.name = route.Name ∧ rt.handler = some route.HandlerFunc)
                ∧ (rt.name = route.Name ∨ rt.name = "")
                ∧ rt.err = (r.NewRoute.Path route.Pattern).err
                ∧ rt.panicked = (r.NewRoute.Path route.Pattern).panicked
                ∧ (rt.err = none → rt.named = true)
                ∧ (rt.err ≠ none → rt.name = "" ∧ rt.handler = none ∧ rt.named = false))
            added routes
        ∧ (applyAPIroutes r caps routes).1.panicked
            = (r.panicked || added.any fun rt => rt.panicked)
        ∧ ∀ name : String,
            (applyAPIroutes r caps routes).1.namedRoutes.lookup name
              = ((added.filter fun rt => rt.named && rt.name == name).getLast?).or
                  (r.namedRoutes.lookup name))
    ∧ (applyAPIroutes mux.NewRouter []
          [{ Name := "getItem", Method := "GET", Pattern := "/item/\x7bid:[0-9]+\x7d",
             HandlerFunc := "getItem" }]).1.routes.map
          (fun rt => (rt.err, rt.panicked, rt.name, rt.handler, rt.Match "GET" "/item/42",
            rt.Match "GET" "/item/x"))
        = [(none, false, "getItem", some "getItem", .yes none, .no)]
    ∧ (applyAPIroutes mux.NewRouter []
          [{ Name := "getItem", Method := "GET", Pattern := "/item/\x7bid:([0-9]+)\x7d",
             HandlerFunc := "getItem" }]).1.panicked = true
    ∧ (∀ s : Routers,
        (applyExternalAPIroutes routes s).externalRouter.routes.length = routes.length)
    ∧ (∀ s : Routers,
        routeNames (applyInternalAPIroutes s).internalRouter
            = internalRoutes.map (fun route => route.Name)
          ∧ (∀ rt ∈ (applyInternalAPIroutes s).internalRouter.routes,
              rt.err = none ∧ rt.panicked = false)
          ∧ (applyInternalAPIroutes s).internalRouter.panicked = false
          ∧ (routeNames (applyInternalAPIroutes s).internalRouter).Nodup) := by
  refine ⟨?_, by rfl, by rfl, ?_, ?_⟩
  · obtain ⟨added, h1, h2, hp, h3⟩ := applyAPIroutes_added routes r caps
    refine ⟨added, h1, h2.length_eq, ?_, hp, h3⟩
    refine h2.imp ?_
    intro rt route h
    obtain ⟨g1, gp, g2, g3⟩ := h
    refine ⟨fun he => ⟨(g2 he).1, (g2 he).2.1⟩, ?_, g1, gp, fun he => (g2 he).2.2, g3⟩
    cases he : rt.err with
    | none => exact Or.inl (g2 he).1
    | some e => exact Or.inr (g3 (by rw [he]; exact Option.some_ne_none e)).1
  · intro s
    obtain ⟨added, h1, h2⟩ := applyAPIroutes_routes routes
      (((mux.NewRouter (η := String)).NewRoute.PathPrefix "/api/v1/e").Subrouter.StrictSlash
        true) s.methodCaps
    have h3 : (applyExternalAPIroutes routes s).externalRouter.routes = [] ++ added := h1
    rw [h3, List.nil_append, h2.length_eq]
  · intro s
    have h : routeNames (applyInternalAPIroutes s).internalRouter
        = ["getOwnResources", "createResource", "deleteResource", "registerResourceProvider",
           "deregisterResourceProvider", "getProviderResources", "setResourceStatus",
           "getResource"] := by rfl
    refine ⟨by rw [h]; rfl, ?_, by rfl, by rw [h]; decide⟩
    intro rt hrt
    rw [applyInternalAPIroutes_routes] at hrt
    simp only [List.mem_cons, List.mem_singleton, List.not_mem_nil, or_false] at hrt
    rcases hrt with rfl | rfl | rfl | rfl | rfl | rfl | rfl | rfl <;> exact ⟨rfl, rfl⟩

/-! ### C8: first match and the order of the table -/

/-- C8 (as stated, refuted): the request `GET /api/v1/i/internal/resource/provider` matches
two routes of the internal router, `getProviderResources` and `getResource`. In the order of
the table it is answered by `getProviderResources`; with the routes in reverse order, a
permutation of the table, it is answered by `getResource`. -/
theorem C8_two_routes_match :
    ((applyInternalAPIroutes { mainRtr := {} }).internalRouter.matching "GET"
        "/api/v1/i/internal/resource/provider").map (fun rt => rt.name)
      = ["getProviderResources", "getResource"]
    ∧ (applyInternalAPIroutes { mainRtr := {} }).internalRouter.Match "GET"
        "/api/v1/i/internal/resource/provider" = .handler "getProviderResources"
    ∧ (applyInternalAPIroutes { mainRtr := {} }).internalRouter.routes.reverse.Perm
        (applyInternalAPIroutes { mainRtr := {} }).internalRouter.routes
    ∧ matchRoutes "GET" "/api/v1/i/internal/resource/provider"
        (applyInternalAPIroutes { mainRtr := {} }).internalRouter.routes.reverse false
      = .handler "getResource" := by
  refine ⟨by rfl, by rfl, List.reverse_perm _, by rfl⟩

/-- C8 (amended): for every method and request path other than `GET` on
`/api/v1/i/internal/resource/provider` (with or without a slash at the end), at most one
route of the internal router matches, and first-match dispatch selects the same answer for
every permutation of its routes. `GET /api/v1/i/internal/resource/provider` matches the two
routes `getProviderResources` and `getResource`, and the order of `internalRoutes` decides:
`getProviderResources` comes first and answers. -/
theorem C8_first_match (s : Routers) (method path : String)
    (h : ¬ (method = "GET" ∧ (path = "/api/v1/i/internal/resource/provider"
      ∨ path = "/api/v1/i/internal/resource/provider/"))) :
    ((applyInternalAPIroutes s).internalRouter.matching method path).length ≤ 1
    ∧ (∀ routes : List (mux.Route String),
        routes.Perm (applyInternalAPIroutes s).internalRouter.routes →
        matchRoutes method path routes false
          = (applyInternalAPIroutes s).internalRouter.Match method path)
    ∧ ((applyInternalAPIroutes s).internalRouter.matching "GET"
          "/api/v1/i/internal/resource/provider").map (fun rt => rt.name)
        = ["getProviderResources", "getResource"]
    ∧ (applyInternalAPIroutes s).internalRouter.Match "GET"
          "/api/v1/i/internal/resource/provider" = .handler "getProviderResources" := by
  have hlen := internal_matching s method path h
  refine ⟨hlen, ?_, by rfl, by rfl⟩
  intro routes hp
  exact (matchRoutes_perm method path hp.symm false hlen).symm

/-- C8 (amended) at a concrete request: `GET /api/v1/i/internal/resource/42` matches one
route and is answered by `getResource` in every order of the routes. -/
theorem C8_first_match_witness :
    ((applyInternalAPIroutes { mainRtr := {} }).internalRouter.matching "GET"
        "/api/v1/i/internal/resource/42").length ≤ 1
    ∧ (applyInternalAPIroutes { mainRtr := {} }).internalRouter.Match "GET"
        "/api/v1/i/internal/resource/42" = .handler "getResource"
    ∧ matchRoutes "GET" "/api/v1/i/internal/resource/42"
        (applyInternalAPIroutes { mainRtr := {} }).internalRouter.routes.reverse false
      = .handler "getResource" := by
  have h := C8_first_match { mainRtr := {} } "GET" "/api/v1/i/internal/resource/42" (by decide)
  refine ⟨h.1, by rfl, ?_⟩
  rw [h.2.1 _ (List.reverse_perm _)]
  rfl

end api


namespace api

/-! ### C1: the registration route -/

theorem internalRouter_names (s : Routers) :
    routeNames (applyInternalAPIroutes s).internalRouter
      = ["getOwnResources", "createResource", "deleteResource", "registerResourceProvider",
         "deregisterResourceProvider", "getProviderResources", "setResourceStatus",
         "getResource"] := by
  rfl


theorem applyStaticRoutes_ok (gconfig : Config) (statik : Statik) (s : Routers)
    (hstatic : gconfig.StaticAssets ≠ "" ∨ (statik.New = none ∧ statik.OpenIndex = none)) :
    ∃ h : String, applyStaticRoutes gconfig statik s = .ok
      { s with
        mainRtr :=
          ((s.mainRtr.add (((s.mainRtr.NewRoute.PathPrefix "/ui/").Name "ui").Handler
              (.handlerFunc h))).add
            (((s.mainRtr.NewRoute.PathPrefix "/static/").Name "static").Handler
              (.handlerFunc "StripPrefix /static/ fileHandler"))).add
            (((s.mainRtr.NewRoute.PathPrefix "/").Name "root").Handler
              (.handlerFunc "uiRedirect")) } := by
  by_cases h : gconfig.StaticAssets = ""
  · rcases hstatic with h' | ⟨h1, h2⟩
    · exact absurd h h'
    · exact ⟨"ServeContent index.html", by simp [applyStaticRoutes, h, h1, h2]; rfl⟩
  · exact ⟨"uiHandler", by simp [applyStaticRoutes, h]; rfl⟩

/-- C1: when the handlers are built (the static assets are a directory, or the embedded
assets open), a POST to `/api/v1/auth/register` is answered by `RegisterHandler` in the
router of `WebsrvInit`; in the router of `Websrv` it is captured by the `/api/v1/auth`
router, which has one route, named `login`, and answers not-found, so the request never
reaches the catch-all redirect of the main router. Neither the main router nor the
`/api/v1/auth` router has a route named `register`, and the internal and the external router
have one only if a route table declared outside `api.go` and `internal.go` names one so. -/
theorem C1_register_route (gconfig : Config) (statik : Statik) (tables : Tables)
    (hstatic : gconfig.StaticAssets ≠ "" ∨ (statik.New = none ∧ statik.OpenIndex = none)) :
    ∃ nInit n : Negroni,
      WebsrvInitHandler gconfig statik tables = .ok nInit
        ∧ WebsrvHandler gconfig statik tables = .ok n
        ∧ nInit.ServeHTTP "POST" "/api/v1/auth/register"
            = { middleware := ["HTTPLogger"], response := .handler "RegisterHandler" }
        ∧ routeNames nInit.routers.authRouter = ["register", "login"]
        ∧ n.ServeHTTP "POST" "/api/v1/auth/register"
            = { middleware := ["HTTPLogger"], response := .notFound }
        ∧ routeNames n.routers.authRouter = ["login"]
        ∧ "register" ∉ routeNames n.routers.mainRtr
        ∧ n.routers.authRouter.namedRoutes.lookup "register" = none
        ∧ (∀ rt : mux.Route String,
            rt ∈ n.routers.internalRouter.routes ∨ rt ∈ n.routers.externalRouter.routes →
            rt.name = "register" →
            ∃ route : route,
              (route ∈ tables.internalWSRoutes ∨ route ∈ tables.externalRoutes
                ∨ route ∈ tables.externalWSRoutes) ∧ route.Name = "register") := by
  obtain ⟨h1, e1⟩ := applyStaticRoutes_ok gconfig statik _ hstatic
  obtain ⟨h2, e2⟩ := applyStaticRoutes_ok gconfig statik _ hstatic
  refine ⟨_, _, by simp only [WebsrvInitHandler]; rw [e1], by simp only [WebsrvHandler]; rw [e2],
    ?_, ?_, ?_, ?_, ?_, ?_, ?_⟩
  · rfl
  · rfl
  · rfl
  · rfl
  · change "register" ∉ ["", "", "", "ui", "static", "root"]
    decide
  · rfl
  · intro rt hrt hname
    have hne : rt.name ≠ "" := by rw [hname]; decide
    rcases hrt with hrt | hrt
    · rcases applyAPIroutes_names _ _ tables.internalWSRoutes rt hrt with h | h | ⟨route, hr, hn⟩
      · have hnames : rt.name ∈ routeNames
            (applyInternalAPIroutes
              (applyAuthRoutes { mainRtr := (mux.NewRouter (η := Mounted)).StrictSlash true }
                false)).internalRouter := List.mem_map.2 ⟨rt, h, rfl⟩
        rw [(internalRouter_names _)] at hnames
        rw [hname] at hnames
        exact absurd hnames (by decide)
      · exact absurd h hne
      · exact ⟨route, Or.inl hr, hn.trans hname⟩
    · rcases applyAPIroutes_names _ _ tables.externalWSRoutes rt hrt with h | h | ⟨route, hr, hn⟩
      · rcases applyAPIroutes_names _ _ tables.externalRoutes rt h with h' | h' | ⟨route, hr, hn⟩
        · simp [mux.Route.Subrouter, mux.Router.StrictSlash] at h'
        · exact absurd h' hne
        · exact ⟨route, Or.inr (Or.inl hr), hn.trans hname⟩
      · exact absurd h hne
      · exact ⟨route, Or.inr (Or.inr hr), hn.trans hname⟩

/-- C1 at a concrete configuration: static assets from a directory, the other route tables
empty. -/
theorem C1_register_route_witness :
    ∃ nInit n : Negroni,
      WebsrvInitHandler
          { HTTPport := 8080, HTTPSport := 8443, InternalIP := "", StaticAssets := "/var/ui" }
          { New := none, OpenIndex := none }
          { internalWSRoutes := [], externalRoutes := [], externalInitRoutes := [],
            externalWSRoutes := [] } = .ok nInit
        ∧ WebsrvHandler
          { HTTPport := 8080, HTTPSport := 8443, InternalIP := "", StaticAssets := "/var/ui" }
          { New := none, OpenIndex := none }
          { internalWSRoutes := [], externalRoutes := [], externalInitRoutes := [],
            externalWSRoutes := [] } = .ok n
        ∧ nInit.ServeHTTP "POST" "/api/v1/auth/register"
            = { middleware := ["HTTPLogger"], response := .handler "RegisterHandler" }
        ∧ n.ServeHTTP "POST" "/api/v1/auth/register"
            = { middleware := ["HTTPLogger"], response := .notFound } := by
  obtain ⟨nInit, n, h1, h2, h3, _, h4, _⟩ :=
    C1_register_route
      { HTTPport := 8080, HTTPSport := 8443, InternalIP := "", StaticAssets := "/var/ui" }
      { New := none, OpenIndex := none }
      { internalWSRoutes := [], externalRoutes := [], externalInitRoutes := [],
        externalWSRoutes := [] }
      (Or.inl (by decide))
  exact ⟨nInit, n, h1, h2, h3, h4⟩

end api

namespace daemon

/-! ### C2: when the normal transport is started -/

/-- C2 (as stated, refuted): the database exists, bootstrap is not requested, and the random
bytes for the JWT secret cannot be generated. The run ends in `log.Fatal`: the bootstrap
listener is not run, and `api.Websrv` is not started either. -/
theorem C2_fatal_run_starts_nothing :
    initReturns
        (StartUp
          { dbExists := true, secretErr := some "no entropy",
            gconfig := { HTTPport := 8080, HTTPSport := 8443, InternalIP := "",
                         StaticAssets := "" },
            statik := { New := none, OpenIndex := none },
            tables := { internalWSRoutes := [], externalRoutes := [],
                        externalInitRoutes := [], externalWSRoutes := [] },
            initListenErr := none, initShutdownErr := none, initQuit := false }
          false) = []
    ∧ "api.Websrv" ∉ started
        (StartUp
          { dbExists := true, secretErr := some "no entropy",
            gconfig := { HTTPport := 8080, HTTPSport := 8443, InternalIP := "",
                         StaticAssets := "" },
            statik := { New := none, OpenIndex := none },
            tables := { internalWSRoutes := [], externalRoutes := [],
                        externalInitRoutes := [], externalWSRoutes := [] },
            initListenErr := none, initShutdownErr := none, initQuit := false }
          false) := by
  decide

/-- C2 (amended): in every run of `StartUp`, `api.Websrv` is started at most once; in every
run that does not end in `log.Fatal` it is started exactly when the bootstrap listener was
not run, which is when the database exists and bootstrap is not requested, or returned
`interrupted = false`; and when `WebsrvInit` returns `interrupted = true`, `api.Websrv` is
never started and `gconfig.InitMode` is never set to `false`. -/
theorem C2_normal_transport (env : Env) (init : Bool) :
    (started (StartUp env init)).count "api.Websrv" ≤ 1
    ∧ (endsFatal (StartUp env init) = false →
        ("api.Websrv" ∈ started (StartUp env init)
          ↔ (initReturns (StartUp env init) = [] ∨ initReturns (StartUp env init) = [false])))
    ∧ (endsFatal (StartUp env init) = false →
        (initReturns (StartUp env init) = [] ↔ (env.dbExists = true ∧ init = false)))
    ∧ (true ∈ initReturns (StartUp env init) →
        "api.Websrv" ∉ started (StartUp env init)
          ∧ false ∉ initModeWrites (StartUp env init)) := by
  rcases hs : env.secretErr with _ | err
  · cases hdb : env.dbExists <;> cases init <;>
      (try
        (rcases hw : api.WebsrvInit env.gconfig env.statik env.tables env.initListenErr
            env.initShutdownErr env.initQuit with e | ⟨eff, b⟩ <;> [skip; cases b])) <;>
      simp [StartUp, serve, hs, hdb, hw, started, initReturns, initModeWrites, endsFatal]
  · simp [StartUp, hs, started, initReturns, initModeWrites, endsFatal]

/-- C2 (amended) at a concrete run: no database yet, the initialisation completes
(`false` arrives on the quit channel of the init web server), and `api.Websrv` is started. -/
theorem C2_normal_transport_witness :
    endsFatal
        (StartUp
          { dbExists := false, secretErr := none,
            gconfig := { HTTPport := 8080, HTTPSport := 8443, InternalIP := "",
                         StaticAssets := "/var/ui" },
            statik := { New := none, OpenIndex := none },
            tables := { internalWSRoutes := [], externalRoutes := [],
                        externalInitRoutes := [], externalWSRoutes := [] },
            initListenErr := none, initShutdownErr := none, initQuit := false }
          false) = false
    ∧ initReturns
        (StartUp
          { dbExists := false, secretErr := none,
            gconfig := { HTTPport := 8080, HTTPSport := 8443, InternalIP := "",
                         StaticAssets := "/var/ui" },
            statik := { New := none, OpenIndex := none },
            tables := { internalWSRoutes := [], externalRoutes := [],
                        externalInitRoutes := [], externalWSRoutes := [] },
            initListenErr := none, initShutdownErr := none, initQuit := false }
          false) = [false]
    ∧ "api.Websrv" ∈ started
        (StartUp
          { dbExists := false, secretErr := none,
            gconfig := { HTTPport := 8080, HTTPSport := 8443, InternalIP := "",
                         StaticAssets := "/var/ui" },
            statik := { New := none, OpenIndex := none },
            tables := { internalWSRoutes := [], externalRoutes := [],
                        externalInitRoutes := [], externalWSRoutes := [] },
            initListenErr := none, initShutdownErr := none, initQuit := false }
          false) :=
  ⟨by decide, by decide,
    ((C2_normal_transport _ false).2.1 (by decide)).2 (Or.inr (by decide))⟩

/-! ### C3: the sends of `catchSignals` -/

end daemon

namespace daemon

/-! ### C4: the wait group -/

theorem disciplined_cons {c : Int} {a : Action} {rest : List Action}
    (h : disciplined c (a :: rest) = true) :
    c ≤ credit (a :: rest) ∧ (a = .wgWait → quiet rest = true)
      ∧ disciplined c rest = true := by
  simp only [disciplined, Bool.and_eq_true, decide_eq_true_eq, Bool.or_eq_true, bne_iff_ne,
    ne_eq] at h
  refine ⟨h.1.1, ?_, h.2⟩
  intro ha
  rcases h.1.2 with h' | h'
  · exact absurd ha h'
  · exact h'

theorem credit_nonneg {c : Int} {l : List Action} (h : disciplined c l = true) :
    c ≤ credit l := by
  cases l with
  | nil => simpa [credit, disciplined] using h
  | cons a rest => exact (disciplined_cons h).1

theorem base_nonpos {c : Int} {l : List Action} (h : disciplined c l = true) : c ≤ 0 := by
  induction l with
  | nil => simpa [disciplined] using h
  | cons a rest ih => exact ih (disciplined_cons h).2.2

theorem quiet_facts (l : List Action) (h : quiet l = true) :
    credit l = 0 ∧ started l = [] ∧ ownDones l = 0 := by
  induction l with
  | nil => simp [credit, started, ownDones]
  | cons a rest ih =>
    cases a <;> simp_all [quiet, credit, started, ownDones]

theorem quiet_tail {a : Action} {rest : List Action} (h : quiet (a :: rest) = true) :
    quiet rest = true := by
  cases a <;> simp_all [quiet]

theorem perm_eraseIdx {α : Type} (l : List α) (i : Nat) (x : α) (h : l[i]? = some x) :
    l.Perm (x :: l.eraseIdx i) := by
  induction l generalizing i with
  | nil => simp at h
  | cons y ys ih =>
    cases i with
    | zero => simp at h; subst h; simp
    | succ j =>
      simp only [List.getElem?_cons_succ] at h
      simp only [List.eraseIdx_cons_succ]
      exact ((ih j h).cons y).trans (List.Perm.swap x y _)

theorem length_eraseIdx' {α : Type} (l : List α) (i : Nat) (x : α) (h : l[i]? = some x) :
    ((l.eraseIdx i).length : Int) = l.length - 1 := by
  have := (perm_eraseIdx l i x h).length_eq
  simp only [List.length_cons] at this
  omega

theorem Inv.initial (prog : List Action) (h : disciplined (credit prog) prog = true) :
    Inv prog (State.initial prog) where
  disc := h
  counter := by simp [State.initial]
  calls := by simp [State.initial]
  waited := by simp [State.initial]
  launched := by simp [State.initial]
  dones := by simp [State.initial]

theorem Inv.wg_nonneg {prog : List Action} {s : State} (h : Inv prog s) : 0 ≤ s.wg := by
  have := credit_nonneg h.disc
  rw [h.counter]
  omega

theorem Inv.idle {prog : List Action} {s : State} (h : Inv prog s) (hw : s.wg = 0) :
    s.running = [] ∧ s.returned = [] ∧ credit s.todo = credit prog := by
  have := credit_nonneg h.disc
  have hc := h.counter
  rw [hw] at hc
  refine ⟨?_, ?_, ?_⟩
  · apply List.eq_nil_of_length_eq_zero; omega
  · apply List.eq_nil_of_length_eq_zero; omega
  · omega

theorem Inv.mainStep {prog : List Action} {s t : State} (h : Inv prog s)
    (hstep : mainStep s = some t) : Inv prog t := by
  obtain ⟨todo, wg, adds, dones, running, returned, finished, passedWait⟩ := s
  obtain ⟨hd, hc, hcalls, hw, hl, hdn⟩ := h
  simp only at hd hc hcalls hw hl hdn
  cases todo with
  | nil => simp [daemon.mainStep] at hstep
  | cons a rest =>
    obtain ⟨hcr, hq, hrest⟩ := disciplined_cons hd
    have hrc := credit_nonneg hrest
    cases a with
    | fatal msg => simp [daemon.mainStep] at hstep
    | wgAdd =>
      simp only [daemon.mainStep, Option.some.injEq] at hstep
      subst hstep
      refine ⟨hrest, ?_, ?_, ?_, ?_, ?_⟩
      · simp only [credit] at hc ⊢; omega
      · simp only [Nat.cast_add, Nat.cast_one]; omega
      · intro hp; have := (hw hp).1; simp [quiet] at this
      · simpa [started] using hl
      · simpa [ownDones] using hdn
    | wgDone =>
      simp only [daemon.mainStep, Option.some.injEq] at hstep
      subst hstep
      refine ⟨hrest, ?_, ?_, ?_, ?_, ?_⟩
      · simp only [credit] at hc ⊢; omega
      · simp only [Nat.cast_add, Nat.cast_one]; omega
      · intro hp; have := (hw hp).1; simp [quiet] at this
      · simpa [started] using hl
      · simp only [ownDones, Nat.cast_add, Nat.cast_one] at hdn ⊢; omega
    | wgWait =>
      simp only [daemon.mainStep] at hstep
      by_cases hz : wg = 0
      · simp only [hz, if_true, Option.some.injEq] at hstep
        subst hstep
        refine ⟨hrest, ?_, ?_, ?_, ?_, ?_⟩
        · simp only [credit] at hc ⊢; omega
        · simpa [hz] using hcalls
        · intro _; exact ⟨hq rfl, rfl⟩
        · simpa [started] using hl
        · simpa [ownDones] using hdn
      · simp [hz] at hstep
    | run manager name =>
      simp only [daemon.mainStep, Option.some.injEq] at hstep
      subst hstep
      refine ⟨hrest, ?_, ?_, ?_, ?_, ?_⟩
      · simp only [credit, List.length_append, List.length_cons, List.length_nil] at hc ⊢
        push_cast
        omega
      · exact hcalls
      · intro hp; have := (hw hp).1; simp [quiet] at this
      · refine hl.trans ?_
        simp only [started, List.filterMap_cons, List.append_assoc]
        refine List.Perm.append_left _ (List.Perm.append_left _ (List.Perm.append_left _ ?_))
        simp
      · simpa [ownDones] using hdn
    | signalNotify | goCatchSignals | call _ | logInfo _ | setInitMode _ | makeQuitChan _ _
    | websrvInit _ =>
      simp only [daemon.mainStep, Option.some.injEq] at hstep
      subst hstep
      refine ⟨hrest, ?_, hcalls, ?_, ?_, ?_⟩
      · simpa [credit] using hc
      · intro hp; exact ⟨quiet_tail (hw hp).1, (hw hp).2⟩
      · simpa [started] using hl
      · simpa [ownDones] using hdn

theorem Inv.returnStep {prog : List Action} {s t : State} (i : Nat) (h : Inv prog s)
    (hstep : returnStep i s = some t) : Inv prog t := by
  obtain ⟨hd, hc, hcalls, hw, hl, hdn⟩ := h
  unfold daemon.returnStep at hstep
  split at hstep
  · simp at hstep
  · cases hr : s.running[i]? with
    | none => simp [hr] at hstep
    | some manager =>
      simp only [hr, Option.some.injEq] at hstep
      subst hstep
      have hlen := length_eraseIdx' s.running i manager hr
      refine ⟨hd, ?_, hcalls, hw, ?_, hdn⟩
      · simp only [List.length_append, List.length_cons, List.length_nil]
        push_cast
        omega
      · refine hl.trans ?_
        have hp := perm_eraseIdx s.running i manager hr
        simp only [List.append_assoc]
        refine List.Perm.append_left _ ?_
        exact List.Perm.append_left s.returned (hp.append_right _)

theorem Inv.doneStep {prog : List Action} {s t : State} (i : Nat) (h : Inv prog s)
    (hstep : doneStep i s = some t) : Inv prog t := by
  obtain ⟨hd, hc, hcalls, hw, hl, hdn⟩ := h
  unfold daemon.doneStep at hstep
  split at hstep
  · simp at hstep
  · cases hr : s.returned[i]? with
    | none => simp [hr] at hstep
    | some manager =>
      simp only [hr, Option.some.injEq] at hstep
      subst hstep
      have hlen := length_eraseIdx' s.returned i manager hr
      have hcr := credit_nonneg hd
      have hpos : 0 < s.returned.length := by
        have := (List.getElem?_eq_some_iff.1 hr).1
        omega
      refine ⟨hd, ?_, ?_, ?_, ?_, ?_⟩
      · simp only; omega
      · simp only [Nat.cast_add, Nat.cast_one]; omega
      · intro hp
        have h0 := (hw hp).2
        have hq := (quiet_facts _ (hw hp).1).1
        simp only at hp
        omega
      · refine hl.trans ?_
        have hp := perm_eraseIdx s.returned i manager hr
        simp only [List.append_assoc]
        exact List.Perm.append_left s.finished (hp.append_right _)
      · simp only [List.length_append, List.length_cons, List.length_nil, Nat.cast_add,
          Nat.cast_one] at hdn ⊢
        omega

theorem Inv.reachable {prog : List Action} {s t : State} (h : Inv prog s)
    (hr : Reachable s t) : Inv prog t := by
  induction hr with
  | refl => exact h
  | tail _ hstep ih =>
    rcases hstep with hm | ⟨i, hi⟩ | ⟨i, hi⟩
    · exact ih.mainStep hm
    · exact ih.returnStep i hi
    · exact ih.doneStep i hi

theorem schedule_reachable (fuel : Nat) (s : State) : Reachable s (schedule fuel s) := by
  induction fuel generalizing s with
  | zero => exact Relation.ReflTransGen.refl
  | succ n ih =>
    unfold schedule
    cases hm : mainStep s with
    | some t => exact Relation.ReflTransGen.head (Or.inl hm) (ih t)
    | none =>
      cases hd : doneStep 0 s with
      | some t => exact Relation.ReflTransGen.head (Or.inr (Or.inr ⟨0, hd⟩)) (ih t)
      | none =>
        cases hr : returnStep 0 s with
        | some t => exact Relation.ReflTransGen.head (Or.inr (Or.inl ⟨0, hr⟩)) (ih t)
        | none => exact Relation.ReflTransGen.refl

theorem StartUp_disciplined (env : Env) (init : Bool) :
    disciplined (credit (StartUp env init)) (StartUp env init) = true := by
  rcases hs : env.secretErr with _ | err
  · cases hdb : env.dbExists <;> cases init <;>
      (try
        (rcases hw : api.WebsrvInit env.gconfig env.statik env.tables env.initListenErr
            env.initShutdownErr env.initQuit with e | ⟨eff, b⟩ <;> [skip; cases b])) <;>
      simp [StartUp, serve, hs, hdb, hw] <;> rfl
  · simp [StartUp, hs]
    rfl

theorem StartUp_completes (env : Env) (init : Bool)
    (h : endsFatal (StartUp env init) = false) :
    (schedule 64 (State.initial (StartUp env init))).todo = []
      ∧ (schedule 64 (State.initial (StartUp env init))).passedWait = true := by
  rcases hs : env.secretErr with _ | err
  · cases hdb : env.dbExists <;> cases init <;>
      (try
        (rcases hw : api.WebsrvInit env.gconfig env.statik env.tables env.initListenErr
            env.initShutdownErr env.initQuit with e | ⟨eff, b⟩ <;> [skip; cases b])) <;>
      simp [StartUp, serve, hs, hdb, hw, endsFatal] at h ⊢ <;> exact ⟨rfl, rfl⟩
  · simp [StartUp, hs, endsFatal] at h

theorem StartUp_dones (env : Env) (init : Bool) :
    ownDones (StartUp env init) = (initReturns (StartUp env init)).length := by
  rcases hs : env.secretErr with _ | err
  · cases hdb : env.dbExists <;> cases init <;>
      (try
        (rcases hw : api.WebsrvInit env.gconfig env.statik env.tables env.initListenErr
            env.initShutdownErr env.initQuit with e | ⟨eff, b⟩ <;> [skip; cases b])) <;>
      simp [StartUp, serve, hs, hdb, hw, initReturns, ownDones]
  · simp [StartUp, hs, initReturns, ownDones]

/-- C4: in every state a run of `StartUp` can get to, the counter of the wait group is not
negative and is the number of `wg.Add(1)` calls less the number of `wg.Done()` calls made so
far. Once `StartUp` has passed `wg.Wait()`, as many `wg.Done()` as `wg.Add(1)` calls were
made, one per manager started with `run` plus one per return of the bootstrap listener, no
manager is running or has its `wg.Done()` pending, and the managers that have returned and
called `wg.Done()` are exactly those `StartUp` started. A run that does not end in
`log.Fatal` can get past `wg.Wait()` to the end of `StartUp`: it does when the managers
return. -/
theorem C4_wait_group (env : Env) (init : Bool) (s : State)
    (h : Reachable (State.initial (StartUp env init)) s) :
    0 ≤ s.wg
    ∧ s.wg = (s.adds : Int) - s.dones
    ∧ (s.passedWait = true →
        s.adds = s.dones
          ∧ s.dones = (started (StartUp env init)).length
              + (initReturns (StartUp env init)).length
          ∧ s.running = [] ∧ s.returned = []
          ∧ (started (StartUp env init)).Perm s.finished)
    ∧ (endsFatal (StartUp env init) = false →
        ∃ t, Reachable (State.initial (StartUp env init)) t
          ∧ t.todo = [] ∧ t.passedWait = true) := by
  have hinv : Inv (StartUp env init) s :=
    (Inv.initial _ (StartUp_disciplined env init)).reachable h
  refine ⟨hinv.wg_nonneg, hinv.calls.symm, ?_, ?_⟩
  · intro hp
    obtain ⟨hq, hz⟩ := hinv.waited hp
    obtain ⟨hrun, hret, _⟩ := hinv.idle hz
    obtain ⟨_, hst, hcnt⟩ := quiet_facts _ hq
    have hperm := hinv.launched
    rw [hrun, hret, hst] at hperm
    simp only [List.append_nil] at hperm
    have hcalls := hinv.calls
    have hdn := hinv.dones
    rw [hcnt, StartUp_dones, ← hperm.length_eq] at hdn
    refine ⟨by omega, by omega, hrun, hret, hperm⟩
  · intro hf
    exact ⟨_, schedule_reachable 64 _, StartUp_completes env init hf⟩

/-- C4 at a concrete run: no database yet, the initialisation completes, both managers
return. Three calls of `wg.Add(1)`, three of `wg.Done()`, and `StartUp` is past
`wg.Wait()`. -/
theorem C4_wait_group_witness :
    Reachable
      (State.initial
        (StartUp
          { dbExists := false, secretErr := none,
            gconfig := { HTTPport := 8080, HTTPSport := 8443, InternalIP := "",
                         StaticAssets := "/var/ui" },
            statik := { New := none, OpenIndex := none },
            tables := { internalWSRoutes := [], externalRoutes := [],
                        externalInitRoutes := [], externalWSRoutes := [] },
            initListenErr := none, initShutdownErr := none, initQuit := false }
          false))
      { todo := [], wg := 0, adds := 3, dones := 3, running := [], returned := [],
        finished := ["api.WSManager", "api.Websrv"], passedWait := true }
    ∧ (3 : Nat)
        = (started
            (StartUp
              { dbExists := false, secretErr := none,
                gconfig := { HTTPport := 8080, HTTPSport := 8443, InternalIP := "",
                             StaticAssets := "/var/ui" },
                statik := { New := none, OpenIndex := none },
                tables := { internalWSRoutes := [], externalRoutes := [],
                            externalInitRoutes := [], externalWSRoutes := [] },
                initListenErr := none, initShutdownErr := none, initQuit := false }
              false)).length
          + (initReturns
            (StartUp
              { dbExists := false, secretErr := none,
                gconfig := { HTTPport := 8080, HTTPSport := 8443, InternalIP := "",
                             StaticAssets := "/var/ui" },
                statik := { New := none, OpenIndex := none },
                tables := { internalWSRoutes := [], externalRoutes := [],
                            externalInitRoutes := [], externalWSRoutes := [] },
                initListenErr := none, initShutdownErr := none, initQuit := false }
              false)).length := by
  have hr : Reachable
      (State.initial
        (StartUp
          { dbExists := false, secretErr := none,
            gconfig := { HTTPport := 8080, HTTPSport := 8443, InternalIP := "",
                         StaticAssets := "/var/ui" },
            statik := { New := none, OpenIndex := none },
            tables := { internalWSRoutes := [], externalRoutes := [],
                        externalInitRoutes := [], externalWSRoutes := [] },
            initListenErr := none, initShutdownErr := none, initQuit := false }
          false))
      { todo := [], wg := 0, adds := 3, dones := 3, running := [], returned := [],
        finished := ["api.WSManager", "api.Websrv"], passedWait := true } :=
    schedule_reachable 64 _
  have h := C4_wait_group _ false _ hr
  exact ⟨hr, (h.2.2.1 rfl).2.1⟩

end daemon

namespace api

/-! ### C10: the handlers of the internal routes and their errors -/

theorem Error_fresh (err : String) :
    Error {} err StatusInternalServerError = errorResponse err := by
  simp [Error, ResponseWriter.WriteHeader, ResponseWriter.Write, errorResponse]

/-- C10: each of the six handlers, answering a request with a fresh response writer.
When reading or decoding the body fails, the response is status 500 with the error text,
the error is logged and no function of the daemon is called; when the function of the daemon
fails, the response is status 500 with the error text; and the response has a success status
only when the body was read and decoded and the function of the daemon returned no error, in
which case nothing is logged. -/
theorem C10_handler_errors (d : Collaborators) (r : Request) :
    -- registerResourceProvider
    ((∀ err, Decode d.decodeProvider r = .error err →
        registerResourceProvider d {} r
          = { w := errorResponse err, logged := [err], calls := [] })
      ∧ (∀ t err, Decode d.decodeProvider r = .ok t → d.RegisterProvider r.app t = some err →
        (registerResourceProvider d {} r).w = errorResponse err
          ∧ (registerResourceProvider d {} r).logged = [err])
      ∧ ((registerResourceProvider d {} r).w.status = some StatusOK →
        (∃ t, Decode d.decodeProvider r = .ok t ∧ d.RegisterProvider r.app t = none)
          ∧ (registerResourceProvider d {} r).logged = []))
    -- deregisterResourceProvider
    ∧ ((∀ err, Decode d.decodeProvider r = .error err →
        deregisterResourceProvider d {} r
          = { w := errorResponse err, logged := [err], calls := [] })
      ∧ (∀ t err, Decode d.decodeProvider r = .ok t → d.DeregisterProvider r.app t = some err →
        (deregisterResourceProvider d {} r).w = errorResponse err
          ∧ (deregisterResourceProvider d {} r).logged = [err])
      ∧ ((deregisterResourceProvider d {} r).w.status = some StatusOK →
        (∃ t, Decode d.decodeProvider r = .ok t ∧ d.DeregisterProvider r.app t = none)
          ∧ (deregisterResourceProvider d {} r).logged = []))
    -- getProviderResources
    ∧ ((∀ err, d.GetProviderResources r.app = .error err →
        (getProviderResources d {} r).w = errorResponse err
          ∧ (getProviderResources d {} r).logged = [err])
      ∧ ((getProviderResources d {} r).w.status = some StatusOK →
        (∃ resources, d.GetProviderResources r.app = .ok resources
            ∧ (getProviderResources d {} r).w.body = d.encode resources)
          ∧ (getProviderResources d {} r).logged = []))
    -- createResource
    ∧ ((∀ err, r.body = .error err →
        createResource d {} r = { w := errorResponse err, logged := [err], calls := [] })
      ∧ (∀ bodyJSON err, r.body = .ok bodyJSON → d.CreateResource r.app bodyJSON = .error err →
        (createResource d {} r).w = errorResponse err
          ∧ (createResource d {} r).logged = [err])
      ∧ ((createResource d {} r).w.status = some StatusOK →
        (∃ bodyJSON resource, r.body = .ok bodyJSON
            ∧ d.CreateResource r.app bodyJSON = .ok resource
            ∧ (createResource d {} r).w.body = d.encode resource)
          ∧ (createResource d {} r).logged = []))
    -- deleteResource
    ∧ ((∀ err, d.DeleteResource r.app r.resourceID = some err →
        (deleteResource d {} r).w = errorResponse err
          ∧ (deleteResource d {} r).logged = [err])
      ∧ ((deleteResource d {} r).w.status = some StatusOK →
        d.DeleteResource r.app r.resourceID = none ∧ (deleteResource d {} r).logged = []))
    -- setResourceStatus
    ∧ ((∀ err, Decode d.decodeStatus r = .error err →
        setResourceStatus d {} r = { w := errorResponse err, logged := [err], calls := [] })
      ∧ (∀ status err, Decode d.decodeStatus r = .ok status →
        d.SetResourceStatus r.app r.resourceID status = some err →
        (setResourceStatus d {} r).w = errorResponse err
          ∧ (setResourceStatus d {} r).logged = [err])
      ∧ ((setResourceStatus d {} r).w.status = some StatusOK →
        (∃ status, Decode d.decodeStatus r = .ok status
            ∧ d.SetResourceStatus r.app r.resourceID status = none)
          ∧ (setResourceStatus d {} r).logged = [])) := by
  refine ⟨⟨?_, ?_, ?_⟩, ⟨?_, ?_, ?_⟩, ⟨?_, ?_⟩, ⟨?_, ?_, ?_⟩, ⟨?_, ?_⟩, ⟨?_, ?_, ?_⟩⟩
  · intro err h; simp only [registerResourceProvider, h, Error_fresh]
  · intro t err h1 h2; simp only [registerResourceProvider, h1, h2, Error_fresh, and_self]
  · cases h1 : Decode d.decodeProvider r with
    | error e =>
      simp only [registerResourceProvider, h1, Error_fresh]
      simp [errorResponse, StatusOK, StatusInternalServerError]
    | ok t =>
      cases h2 : d.RegisterProvider r.app t <;>
        simp only [registerResourceProvider, h1, h2, Error_fresh] <;>
        simp [errorResponse, StatusOK, StatusInternalServerError, h2]
  · intro err h; simp only [deregisterResourceProvider, h, Error_fresh]
  · intro t err h1 h2; simp only [deregisterResourceProvider, h1, h2, Error_fresh, and_self]
  · cases h1 : Decode d.decodeProvider r with
    | error e =>
      simp only [deregisterResourceProvider, h1, Error_fresh]
      simp [errorResponse, StatusOK, StatusInternalServerError]
    | ok t =>
      cases h2 : d.DeregisterProvider r.app t <;>
        simp only [deregisterResourceProvider, h1, h2, Error_fresh] <;>
        simp [errorResponse, StatusOK, StatusInternalServerError, h2]
  · intro err h; simp only [getProviderResources, h, Error_fresh, and_self]
  · cases h1 : d.GetProviderResources r.app <;>
      simp only [getProviderResources, h1, Error_fresh] <;>
      simp [errorResponse, StatusOK, StatusInternalServerError,
        ResponseWriter.Write, ResponseWriter.WriteHeader]
  · intro err h; simp only [createResource, h, Error_fresh]
  · intro b err h1 h2; simp only [createResource, h1, h2, Error_fresh, and_self]
  · cases h1 : r.body with
    | error e =>
      simp only [createResource, h1, Error_fresh]
      simp [errorResponse, StatusOK, StatusInternalServerError]
    | ok b =>
      cases h2 : d.CreateResource r.app b <;>
        simp only [createResource, h1, h2, Error_fresh] <;>
        simp [errorResponse, StatusOK, StatusInternalServerError,
          ResponseWriter.Write, ResponseWriter.WriteHeader, h2]
  · intro err h; simp only [deleteResource, h, Error_fresh, and_self]
  · cases h1 : d.DeleteResource r.app r.resourceID <;>
      simp only [deleteResource, h1, Error_fresh] <;>
      simp [errorResponse, StatusOK, StatusInternalServerError, ResponseWriter.WriteHeader]
  · intro err h; simp only [setResourceStatus, h, Error_fresh]
  · intro t err h1 h2; simp only [setResourceStatus, h1, h2, Error_fresh, and_self]
  · cases h1 : Decode d.decodeStatus r with
    | error e =>
      simp only [setResourceStatus, h1, Error_fresh]
      simp [errorResponse, StatusOK, StatusInternalServerError]
    | ok t =>
      cases h2 : d.SetResourceStatus r.app r.resourceID t <;>
        simp only [setResourceStatus, h1, h2, Error_fresh] <;>
        simp [errorResponse, StatusOK, StatusInternalServerError, h2]

/-- C10 at a concrete request: the body of a request to `registerResourceProvider` does not
decode; the response is status 500 with the error text, and the daemon is not called. -/
theorem C10_handler_errors_witness :
    registerResourceProvider
        { decodeProvider := fun _ => .error "unexpected EOF", decodeStatus := fun s => .ok s,
          encode := fun s => s, RegisterProvider := fun _ _ => none,
          DeregisterProvider := fun _ _ => none, GetProviderResources := fun _ => .ok "[]",
          GetAppResources := fun _ => "[]", CreateResource := fun _ b => .ok b,
          DeleteResource := fun _ _ => none, SetResourceStatus := fun _ _ _ => none }
        {} { app := "app1", body := .ok "", resourceID := "" }
      = { w := { status := some 500, body := "unexpected EOF\n" },
          logged := ["unexpected EOF"], calls := [] } :=
  (C10_handler_errors
      { decodeProvider := fun _ => .error "unexpected EOF", decodeStatus := fun s => .ok s,
        encode := fun s => s, RegisterProvider := fun _ _ => none,
        DeregisterProvider := fun _ _ => none, GetProviderResources := fun _ => .ok "[]",
        GetAppResources := fun _ => "[]", CreateResource := fun _ b => .ok b,
        DeleteResource := fun _ _ => none, SetResourceStatus := fun _ _ _ => none }
      { app := "app1", body := .ok "", resourceID := "" }).1.1 "unexpected EOF" rfl

end api
